import Mathlib

/-
A shallow embedding of the diagram editor in src/graph_editor.py.

Geometry is modelled over ℚ (Qt qreal arithmetic on the values this program
manipulates).  QGraphicsItem parent/child semantics are modelled explicitly:
an item's stored position is in parent coordinates, its scene position is the
composition with the parent's position, and reparenting keeps the stored
(local) position unchanged (as plain setParentItem does in Qt).  The editor's
id-keyed Python dicts are modelled as insertion-ordered association lists with
Python dict assignment semantics (replace in place if present, else append).
-/

set_option maxRecDepth 8000

namespace GraphEditorModel

/-- A QRectF: origin x, y and extent w, h. -/
structure RectQ where
  x : ℚ
  y : ℚ
  w : ℚ
  h : ℚ
deriving DecidableEq

/-- Point addition, used to compose parent and local positions. -/
def addPt (a b : ℚ × ℚ) : ℚ × ℚ := (a.1 + b.1, a.2 + b.2)

/-- QRectF.translated by a point. -/
def translateRect (r : RectQ) (p : ℚ × ℚ) : RectQ :=
  { x := r.x + p.1, y := r.y + p.2, w := r.w, h := r.h }

/-- Minimum of two rationals (kept as an explicit conditional so that concrete
instances evaluate by kernel reduction). -/
def qmin (a b : ℚ) : ℚ := if a ≤ b then a else b

/-- Maximum of two rationals. -/
def qmax (a b : ℚ) : ℚ := if a ≤ b then b else a

/-- QRectF.contains(point): edges inclusive, null extent in either axis gives false,
negative extents are normalised (as in Qt). -/
def rectContains (r : RectQ) (p : ℚ × ℚ) : Bool :=
  let l := qmin r.x (r.x + r.w)
  let rr := qmax r.x (r.x + r.w)
  let t := qmin r.y (r.y + r.h)
  let b := qmax r.y (r.y + r.h)
  decide (l ≠ rr) && decide (t ≠ b) &&
    decide (l ≤ p.1) && decide (p.1 ≤ rr) && decide (t ≤ p.2) && decide (p.2 ≤ b)

/-- QRectF.isNull: both extents are zero. -/
def rectIsNull (r : RectQ) : Bool :=
  decide (r.w = 0) && decide (r.h = 0)

/-- QRectF.united: a null operand yields the other rect, otherwise the bounding
rect of the two (extents normalised as in Qt). -/
def rectUnited (a b : RectQ) : RectQ :=
  if rectIsNull a then b
  else if rectIsNull b then a
  else
    let al := qmin a.x (a.x + a.w)
    let ar := qmax a.x (a.x + a.w)
    let at2 := qmin a.y (a.y + a.h)
    let ab2 := qmax a.y (a.y + a.h)
    let bl := qmin b.x (b.x + b.w)
    let br := qmax b.x (b.x + b.w)
    let bt := qmin b.y (b.y + b.h)
    let bb := qmax b.y (b.y + b.h)
    { x := qmin al bl, y := qmin at2 bt,
      w := qmax ar br - qmin al bl, h := qmax ab2 bb - qmin at2 bt }

/-- QRectF.adjust(dx1, dy1, dx2, dy2). -/
def rectAdjust (r : RectQ) (dx1 dy1 dx2 dy2 : ℚ) : RectQ :=
  { x := r.x + dx1, y := r.y + dy1, w := r.w + dx2 - dx1, h := r.h + dy2 - dy1 }

/-- The four anchor orientations of a block. -/
inductive Orientation where
  | top
  | bottom
  | left
  | right
deriving DecidableEq

/-- Resolution of a persisted anchor name against the block's anchors dict
(block.anchors.get(name)). -/
def anchorOfString (s : String) : Option Orientation :=
  if s = "top" then some Orientation.top
  else if s = "bottom" then some Orientation.bottom
  else if s = "left" then some Orientation.left
  else if s = "right" then some Orientation.right
  else none

/-- The name under which an anchor is persisted (its key in block.anchors). -/
def orientToString : Orientation → String
  | Orientation.top => "top"
  | Orientation.bottom => "bottom"
  | Orientation.left => "left"
  | Orientation.right => "right"

/-- AnchorHandle.HANDLE_SIZE. -/
def HANDLE_SIZE : ℚ := 8

/-- The positions (top-left corners, in block-local coordinates) of the four
anchor handle items owned by a block. -/
structure Anchors where
  top : ℚ × ℚ
  bottom : ℚ × ℚ
  left : ℚ × ℚ
  right : ℚ × ℚ
deriving DecidableEq

/-- GraphBlock.updateAnchors: handle positions derived from the block's rect. -/
def updateAnchors (r : RectQ) : Anchors :=
  { top := (r.w / 2 - HANDLE_SIZE / 2, -(HANDLE_SIZE / 2)),
    bottom := (r.w / 2 - HANDLE_SIZE / 2, r.h - HANDLE_SIZE / 2),
    left := (-(HANDLE_SIZE / 2), r.h / 2 - HANDLE_SIZE / 2),
    right := (r.w - HANDLE_SIZE / 2, r.h / 2 - HANDLE_SIZE / 2) }

/-- A GraphBlock: id, text, colour, lock flag, position in parent coordinates,
optional parent cluster (by cluster dict key), local rect and anchor handles. -/
structure GraphBlock where
  block_id : Int
  title : String
  content : String
  color : String
  locked : Bool
  pos : ℚ × ℚ
  parent : Option Int
  rect : RectQ
  anchors : Anchors
deriving DecidableEq

/-- The GraphBlock constructor (block_id is overwritten by every caller;
the source initialises it to None). -/
def mkGraphBlock (r : RectQ) (t : String) : GraphBlock :=
  { block_id := 0, title := t, content := "", color := "#ffffff",
    locked := false, pos := (0, 0), parent := none,
    rect := r, anchors := updateAnchors r }

/-- GraphBlock.setBlockRect: replace the rect and recompute the anchors. -/
def setBlockRect (b : GraphBlock) (r : RectQ) : GraphBlock :=
  { b with rect := r, anchors := updateAnchors r }

/-- The stored position of one anchor handle of a block. -/
def anchorPos (b : GraphBlock) : Orientation → ℚ × ℚ
  | Orientation.top => b.anchors.top
  | Orientation.bottom => b.anchors.bottom
  | Orientation.left => b.anchors.left
  | Orientation.right => b.anchors.right

/-- The centre of an anchor handle in block-local coordinates (the handle is an
ellipse of extent HANDLE_SIZE at anchorPos). -/
def anchorCenter (b : GraphBlock) (o : Orientation) : ℚ × ℚ :=
  ((anchorPos b o).1 + HANDLE_SIZE / 2, (anchorPos b o).2 + HANDLE_SIZE / 2)

/-- A GraphCluster: text, colour, lock flag, position, own rect and the ordered
member list (ids of the GraphBlock objects held in cluster.blocks). -/
structure GraphCluster where
  title : String
  color : String
  locked : Bool
  pos : ℚ × ℚ
  rect : RectQ
  blocks : List Int
deriving DecidableEq

/-- A GraphConnection: anchors are held as (owning block id, orientation);
end_anchor is None while the connection is not committed. -/
structure GraphConnection where
  start_anchor : Int × Orientation
  end_anchor : Option (Int × Orientation)
deriving DecidableEq

/-- The GraphEditor state: the two id-keyed registries (insertion-ordered, as
Python dicts), the connection list, the id counters, the edit-panel focus and
the in-progress connection. -/
structure GraphEditor where
  block_id_counter : Int
  cluster_id_counter : Int
  blocks : List (Int × GraphBlock)
  clusters : List (Int × GraphCluster)
  connections : List GraphConnection
  currentBlock : Option Int
  currentCluster : Option Int
  editLocked : Bool
  current_connection : Option (Int × Orientation)
deriving DecidableEq

/-- GraphEditor.__init__. -/
def initState : GraphEditor :=
  { block_id_counter := 1, cluster_id_counter := 1, blocks := [], clusters := [],
    connections := [], currentBlock := none, currentCluster := none,
    editLocked := false, current_connection := none }

/-- Python dict lookup. -/
def lookupKey {α : Type} (k : Int) : List (Int × α) → Option α
  | [] => none
  | p :: rest => if p.1 = k then some p.2 else lookupKey k rest

/-- Python dict assignment: replace in place when the key exists, else append. -/
def dictInsert {α : Type} (l : List (Int × α)) (k : Int) (v : α) : List (Int × α) :=
  match l with
  | [] => [(k, v)]
  | p :: rest => if p.1 = k then (k, v) :: rest else p :: dictInsert rest k v

/-- Python del dict[k]. -/
def removeKey {α : Type} (k : Int) (l : List (Int × α)) : List (Int × α) :=
  l.filter (fun p => p.1 ≠ k)

/-- Mutating the value stored under a key, in place. -/
def mapValue {α : Type} (l : List (Int × α)) (k : Int) (f : α → α) : List (Int × α) :=
  l.map (fun p => if p.1 = k then (p.1, f p.2) else p)

/-- The keys of a registry, in order. -/
def keysOf {α : Type} (l : List (Int × α)) : List Int := l.map Prod.fst

/-- QGraphicsItem.scenePos for a block: local position composed with the parent
cluster's position when parented (clusters are always top-level). -/
def scenePosOfBlock (s : GraphEditor) (b : GraphBlock) : ℚ × ℚ :=
  match b.parent with
  | none => b.pos
  | some cid =>
    match lookupKey cid s.clusters with
    | some c => addPt c.pos b.pos
    | none => b.pos

/-- The scene position of the block registered under an id. -/
def scenePosOfBlockId (s : GraphEditor) (bid : Int) : Option (ℚ × ℚ) :=
  (lookupKey bid s.blocks).map (fun b => scenePosOfBlock s b)

/-- QGraphicsItem.sceneBoundingRect for a block. -/
def sceneBoundingRect (s : GraphEditor) (b : GraphBlock) : RectQ :=
  translateRect b.rect (scenePosOfBlock s b)

/-- GraphCluster.computeBoundingRect: union of the members' scene bounding
rects, adjusted by the fixed margin; the empty list gives QRectF(). -/
def computeBoundingRect (s : GraphEditor) : List GraphBlock → RectQ
  | [] => { x := 0, y := 0, w := 0, h := 0 }
  | b :: rest =>
    rectAdjust (rest.foldl (fun r blk => rectUnited r (sceneBoundingRect s blk))
      (sceneBoundingRect s b)) (-10) (-10) 10 10

/-- A cluster's sceneBoundingRect (clusters are top-level items). -/
def clusterSceneRect (c : GraphCluster) : RectQ :=
  translateRect c.rect c.pos

/-- GraphEditor.setCurrentBlock. -/
def setCurrentBlockFn (bid : Int) (s : GraphEditor) : GraphEditor :=
  if s.editLocked then s
  else { s with currentBlock := some bid, currentCluster := none }

/-- GraphEditor.setCurrentCluster. -/
def setCurrentClusterFn (cid : Int) (s : GraphEditor) : GraphEditor :=
  if s.editLocked then s
  else { s with currentCluster := some cid, currentBlock := none }

/-- GraphEditor.addBlock: a 150 x 80 block at the randomised position (x, y),
registered under the next block id, which is then advanced. -/
def addBlock (x y : ℚ) (s : GraphEditor) : GraphEditor :=
  let bid := s.block_id_counter
  let b0 := mkGraphBlock { x := 0, y := 0, w := 150, h := 80 } ("Новий блок")
  let b := { b0 with block_id := bid, pos := (x, y) }
  let s1 := { s with blocks := dictInsert s.blocks bid b, block_id_counter := bid + 1 }
  setCurrentBlockFn bid s1

/-- An item of the scene's current selection. -/
inductive SelItem where
  | block (bid : Int)
  | cluster (cid : Int)
deriving DecidableEq

/-- Whether a committed or half-open connection references a block (by its
start anchor, or by its end anchor when that is set). -/
def touchesBlock (bid : Int) (c : GraphConnection) : Bool :=
  c.start_anchor.1 == bid ||
    (match c.end_anchor with
     | some e => e.1 == bid
     | none => false)

/-- One iteration of GraphEditor.deleteSelected: a selected block takes its
touching connections with it; a selected cluster releases its members (their
local positions kept) and is dropped from the registry. -/
def deleteOneSelected (s : GraphEditor) (it : SelItem) : GraphEditor :=
  match it with
  | SelItem.block bid =>
    if (lookupKey bid s.blocks).isSome then
      { s with
        connections := s.connections.filter (fun c => !(touchesBlock bid c)),
        blocks := removeKey bid s.blocks }
    else s
  | SelItem.cluster cid =>
    match lookupKey cid s.clusters with
    | some c =>
      let s1 := { s with
        blocks := c.blocks.foldl
          (fun bs bid => mapValue bs bid (fun b => { b with parent := none })) s.blocks }
      { s1 with clusters := removeKey cid s1.clusters }
    | none => s

/-- GraphEditor.deleteSelected over the current selection. -/
def deleteSelected (sel : List SelItem) (s : GraphEditor) : GraphEditor :=
  sel.foldl deleteOneSelected s

/-- The selected blocks resolved against the registry, in selection order. -/
def selectedBlocks (sel : List SelItem) (s : GraphEditor) : List (Int × GraphBlock) :=
  match sel with
  | [] => []
  | SelItem.block bid :: rest =>
    (match lookupKey bid s.blocks with
     | some b => (bid, b) :: selectedBlocks rest s
     | none => selectedBlocks rest s)
  | SelItem.cluster _ :: rest => selectedBlocks rest s

/-- GraphEditor.groupSelectedBlocks: with fewer than two selected blocks a
no-op; otherwise a fresh cluster over the selection's current scene bounding
rect is registered under the next cluster id and every selected block is
reparented to it (keeping its local position, as setParentItem does). -/
def groupSelectedBlocks (sel : List SelItem) (s : GraphEditor) : GraphEditor :=
  let selBlocks := selectedBlocks sel s
  if selBlocks.length < 2 then s
  else
    let cid := s.cluster_id_counter
    let c : GraphCluster :=
      { title := "Кластер " ++ toString cid, color := "#ffeeaa", locked := false,
        pos := (0, 0), rect := computeBoundingRect s (selBlocks.map Prod.snd),
        blocks := selBlocks.map Prod.fst }
    let s1 := { s with clusters := dictInsert s.clusters cid c,
                       cluster_id_counter := cid + 1 }
    { s1 with blocks := selBlocks.foldl
                          (fun bs p => mapValue bs p.1 (fun b => { b with parent := some cid }))
                          s1.blocks }

/-- GraphEditor.detachClusterBlocks: every member of the current cluster is
reparented to the scene (local position kept), the member list is emptied and
the cluster's rect is set to QRectF(). -/
def detachClusterBlocks (s : GraphEditor) : GraphEditor :=
  match s.currentCluster with
  | none => s
  | some cid =>
    match lookupKey cid s.clusters with
    | none => s
    | some c =>
      let s1 := { s with
        blocks := c.blocks.foldl
          (fun bs bid => mapValue bs bid (fun b => { b with parent := none })) s.blocks }
      { s1 with clusters := mapValue s1.clusters cid
                              (fun c2 => { c2 with blocks := [],
                                                   rect := { x := 0, y := 0, w := 0, h := 0 } }) }

/-- The per-block step of GraphEditor.attachClusterBlocks: an unparented block
whose scene position lies in the cluster's scene rect is reparented to the
cluster (local position kept) and appended to the member list if absent. -/
def attachStep (cid : Int) (cluster_rect : RectQ)
    (acc : List (Int × GraphBlock) × List Int) (p : Int × GraphBlock) :
    List (Int × GraphBlock) × List Int :=
  if p.2.parent.isNone && rectContains cluster_rect p.2.pos then
    (acc.1 ++ [(p.1, { p.2 with parent := some cid })],
     if p.1 ∈ acc.2 then acc.2 else acc.2 ++ [p.1])
  else (acc.1 ++ [p], acc.2)

/-- GraphEditor.attachClusterBlocks over the current cluster. -/
def attachClusterBlocks (s : GraphEditor) : GraphEditor :=
  match s.currentCluster with
  | none => s
  | some cid =>
    match lookupKey cid s.clusters with
    | none => s
    | some c =>
      let cluster_rect := clusterSceneRect c
      let r := s.blocks.foldl (attachStep cid cluster_rect) ([], c.blocks)
      { s with blocks := r.1,
               clusters := mapValue s.clusters cid (fun c2 => { c2 with blocks := r.2 }) }

/-- GraphEditor.saveEdit: wOpt and hOpt are the float() parse results of the
width and height fields (the source falls back to the current dimensions when
either parse fails).  The block branch applies title, content and rect; the
cluster branch applies only the title — the computed newRect is discarded. -/
def saveEdit (t c : String) (wOpt hOpt : Option ℚ) (s : GraphEditor) : GraphEditor :=
  match s.currentBlock with
  | some bid =>
    (match lookupKey bid s.blocks with
     | some b =>
       let wh : ℚ × ℚ :=
         match wOpt, hOpt with
         | some w, some hh => (w, hh)
         | _, _ => (b.rect.w, b.rect.h)
       { s with blocks := mapValue s.blocks bid (fun b2 =>
           setBlockRect { b2 with title := t, content := c }
             { x := 0, y := 0, w := wh.1, h := wh.2 }) }
     | none => s)
  | none =>
    match s.currentCluster with
    | some cid =>
      (match lookupKey cid s.clusters with
       | some _ =>
         { s with clusters := mapValue s.clusters cid (fun c2 => { c2 with title := t }) }
       | none => s)
    | none => s

/-- GraphEditor.fixCurrent. -/
def fixCurrent (s : GraphEditor) : GraphEditor :=
  match s.currentBlock with
  | some bid => { s with blocks := mapValue s.blocks bid (fun b => { b with locked := true }) }
  | none =>
    match s.currentCluster with
    | some cid =>
      { s with clusters := mapValue s.clusters cid (fun c => { c with locked := true }) }
    | none => s

/-- GraphEditor.unfixCurrent. -/
def unfixCurrent (s : GraphEditor) : GraphEditor :=
  match s.currentBlock with
  | some bid => { s with blocks := mapValue s.blocks bid (fun b => { b with locked := false }) }
  | none =>
    match s.currentCluster with
    | some cid =>
      { s with clusters := mapValue s.clusters cid (fun c => { c with locked := false }) }
    | none => s

/-- A drag of a block to a new parent-space position; a locked block refuses
the move (GraphBlock.itemChange). -/
def moveBlock (bid : Int) (p : ℚ × ℚ) (s : GraphEditor) : GraphEditor :=
  { s with blocks := mapValue s.blocks bid (fun b => if b.locked then b else { b with pos := p }) }

/-- A drag of a cluster; a locked cluster refuses the move. -/
def moveCluster (cid : Int) (p : ℚ × ℚ) (s : GraphEditor) : GraphEditor :=
  { s with clusters := mapValue s.clusters cid (fun c => if c.locked then c else { c with pos := p }) }

/-- GraphEditor.startConnection: a no-op while a connection is pending. -/
def startConnection (bid : Int) (o : Orientation) (s : GraphEditor) : GraphEditor :=
  if s.current_connection.isSome then s
  else { s with current_connection := some (bid, o) }

/-- GraphEditor.endConnection: commits to a different block's anchor, cancels
on the starting block. -/
def endConnection (bid : Int) (o : Orientation) (s : GraphEditor) : GraphEditor :=
  match s.current_connection with
  | none => s
  | some st =>
    if bid ≠ st.1 then
      { s with connections := s.connections ++ [{ start_anchor := st, end_anchor := some (bid, o) }],
               current_connection := none }
    else { s with current_connection := none }

/-- GraphEditor.cancelConnection. -/
def cancelConnection (s : GraphEditor) : GraphEditor :=
  { s with current_connection := none }

/-- GraphEditor.changeColor: none models a cancelled colour dialog; both the
current block and the current cluster branch are applied as in the source. -/
def changeColor (copt : Option String) (s : GraphEditor) : GraphEditor :=
  match copt with
  | none => s
  | some col =>
    let s1 :=
      match s.currentBlock with
      | some bid => { s with blocks := mapValue s.blocks bid (fun b => { b with color := col }) }
      | none => s
    match s1.currentCluster with
    | some cid =>
      { s1 with clusters := mapValue s1.clusters cid (fun c => { c with color := col }) }
    | none => s1

/-- GraphEditor.newFile: clears the registries and counters; the edit lock and
any in-progress connection are untouched by the source. -/
def newFile (s : GraphEditor) : GraphEditor :=
  { s with blocks := [], clusters := [], connections := [],
           block_id_counter := 1, cluster_id_counter := 1,
           currentBlock := none, currentCluster := none }

/-- One blocks[] entry of the persisted document. -/
structure BlockData where
  id : Int
  title : String
  content : String
  x : ℚ
  y : ℚ
  width : ℚ
  height : ℚ
  color : String
  locked : Bool
deriving DecidableEq

/-- One clusters[] entry of the persisted document. -/
structure ClusterData where
  id : Int
  title : String
  color : String
  block_ids : List Int
  locked : Bool
deriving DecidableEq

/-- One connections[] entry of the persisted document. -/
structure ConnData where
  start_block_id : Int
  start_anchor : String
  end_block_id : Int
  end_anchor : String
deriving DecidableEq

/-- The persisted document: three sequences. -/
structure Document where
  blocks : List BlockData
  clusters : List ClusterData
  connections : List ConnData
deriving DecidableEq

/-- The block reconstructed from one blocks[] entry by openFile. -/
def blockOfData (bd : BlockData) : GraphBlock :=
  { mkGraphBlock { x := 0, y := 0, w := bd.width, h := bd.height } bd.title with
    block_id := bd.id, content := bd.content, color := bd.color,
    pos := (bd.x, bd.y), locked := bd.locked }

/-- One iteration of openFile's blocks loop: register the block and advance the
block counter past its id when needed. -/
def loadBlock (s : GraphEditor) (bd : BlockData) : GraphEditor :=
  let s1 := { s with blocks := dictInsert s.blocks bd.id (blockOfData bd) }
  if bd.id ≥ s1.block_id_counter then { s1 with block_id_counter := bd.id + 1 } else s1

/-- openFile's blocks loop. -/
def loadBlocksAux : List BlockData → GraphEditor → GraphEditor
  | [], s => s
  | bd :: rest, s => loadBlocksAux rest (loadBlock s bd)

/-- The member ids of a clusters[] entry that resolve in the registry. -/
def resolvedIds (s : GraphEditor) (cd : ClusterData) : List Int :=
  cd.block_ids.filter (fun bid => (lookupKey bid s.blocks).isSome)

/-- The member blocks of a clusters[] entry that resolve in the registry. -/
def resolvedBlocks (s : GraphEditor) (cd : ClusterData) : List GraphBlock :=
  cd.block_ids.filterMap (fun bid => lookupKey bid s.blocks)

/-- The cluster reconstructed from one clusters[] entry (openFile does not
reparent the member blocks). -/
def clusterOfData (s : GraphEditor) (cd : ClusterData) : GraphCluster :=
  { title := cd.title, color := cd.color, locked := cd.locked, pos := (0, 0),
    rect := computeBoundingRect s (resolvedBlocks s cd),
    blocks := resolvedIds s cd }

/-- One iteration of openFile's clusters loop: an entry with no resolving
member is skipped, otherwise the cluster is registered under its explicit id
(the cluster counter is not consulted). -/
def loadCluster (s : GraphEditor) (cd : ClusterData) : GraphEditor :=
  if (resolvedBlocks s cd).isEmpty then s
  else { s with clusters := dictInsert s.clusters cd.id (clusterOfData s cd) }

/-- openFile's clusters loop. -/
def loadClustersAux : List ClusterData → GraphEditor → GraphEditor
  | [], s => s
  | cd :: rest, s => loadClustersAux rest (loadCluster s cd)

/-- openFile's connections loop.  An entry with an unresolvable block id is
skipped.  When both ids resolve, an unresolvable start anchor name makes
create_line_item dereference None — the load raises; an unresolvable end
anchor name merely leaves end_anchor as None on the stored connection.  On an
exception the loop stops with the state mutated so far. -/
def loadConnsAux : List ConnData → GraphEditor → GraphEditor × Option String
  | [], s => (s, none)
  | cd :: rest, s =>
    if (lookupKey cd.start_block_id s.blocks).isSome
        && (lookupKey cd.end_block_id s.blocks).isSome then
      match anchorOfString cd.start_anchor with
      | none => (s, some ("AttributeError"))
      | some so =>
        loadConnsAux rest
          { s with connections := s.connections ++
              [{ start_anchor := (cd.start_block_id, so),
                 end_anchor := (anchorOfString cd.end_anchor).map
                   (fun eo => (cd.end_block_id, eo)) }] }
    else loadConnsAux rest s

/-- The body of GraphEditor.openFile after json.load succeeds: clear the
current document, then the three loading phases. -/
def loadDocument (doc : Document) (s : GraphEditor) : GraphEditor × Option String :=
  loadConnsAux doc.connections
    (loadClustersAux doc.clusters (loadBlocksAux doc.blocks (newFile s)))

/-- GraphEditor.openFile: the argument is the outcome of reading and parsing
the chosen file; a read or parse failure raises before newFile is called, so
the state is returned untouched. -/
def openFile (parsed : Except String Document) (s : GraphEditor) :
    GraphEditor × Option String :=
  match parsed with
  | Except.error e => (s, some e)
  | Except.ok doc => loadDocument doc s

/-- The state after openFile's block and cluster phases (before connections). -/
def loadPhase12 (doc : Document) (s : GraphEditor) : GraphEditor :=
  loadClustersAux doc.clusters (loadBlocksAux doc.blocks (newFile s))

/-- One blocks[] entry written by saveFile: the block at its scene position,
with its rect extents. -/
def saveBlockEntry (s : GraphEditor) (p : Int × GraphBlock) : BlockData :=
  { id := p.2.block_id, title := p.2.title, content := p.2.content,
    x := (scenePosOfBlock s p.2).1, y := (scenePosOfBlock s p.2).2,
    width := p.2.rect.w, height := p.2.rect.h,
    color := p.2.color, locked := p.2.locked }

/-- One clusters[] entry written by saveFile: the dict key as id and the
member ids as held in cluster.blocks. -/
def saveClusterEntry (p : Int × GraphCluster) : ClusterData :=
  { id := p.1, title := p.2.title, color := p.2.color,
    block_ids := p.2.blocks, locked := p.2.locked }

/-- One connections[] entry written by saveFile; a connection with no end
anchor is skipped. -/
def saveConnEntry (c : GraphConnection) : Option ConnData :=
  c.end_anchor.map (fun e =>
    { start_block_id := c.start_anchor.1,
      start_anchor := orientToString c.start_anchor.2,
      end_block_id := e.1,
      end_anchor := orientToString e.2 })

/-- GraphEditor.saveFile: blocks at their scene positions, clusters under their
dict keys with their member id lists, and only committed connections. -/
def saveFile (s : GraphEditor) : Document :=
  { blocks := s.blocks.map (saveBlockEntry s),
    clusters := s.clusters.map saveClusterEntry,
    connections := s.connections.filterMap saveConnEntry }

/-- A click on a registered block (GraphBlock.mousePressEvent). -/
def clickBlock (bid : Int) (s : GraphEditor) : GraphEditor :=
  match lookupKey bid s.blocks with
  | some _ => setCurrentBlockFn bid s
  | none => s

/-- A click on a registered cluster (GraphCluster.mousePressEvent). -/
def clickCluster (cid : Int) (s : GraphEditor) : GraphEditor :=
  match lookupKey cid s.clusters with
  | some _ => setCurrentClusterFn cid s
  | none => s

/-- The user-driven events of the editor. -/
inductive Cmd where
  | addBlockCmd (x y : ℚ)
  | deleteSelectedCmd (sel : List SelItem)
  | groupCmd (sel : List SelItem)
  | detachCmd
  | attachCmd
  | saveEditCmd (t c : String) (wOpt hOpt : Option ℚ)
  | moveBlockCmd (bid : Int) (p : ℚ × ℚ)
  | moveClusterCmd (cid : Int) (p : ℚ × ℚ)
  | fixCmd
  | unfixCmd
  | setCurrentBlockCmd (bid : Int)
  | setCurrentClusterCmd (cid : Int)
  | startConnectionCmd (bid : Int) (o : Orientation)
  | endConnectionCmd (bid : Int) (o : Orientation)
  | cancelConnectionCmd
  | changeColorCmd (copt : Option String)
  | newFileCmd
  | openFileCmd (parsed : Except String Document)
  | lockToggleCmd (b : Bool)
  | dockClosedCmd

/-- The editor's event step. -/
def step (s : GraphEditor) : Cmd → GraphEditor
  | Cmd.addBlockCmd x y => addBlock x y s
  | Cmd.deleteSelectedCmd sel => deleteSelected sel s
  | Cmd.groupCmd sel => groupSelectedBlocks sel s
  | Cmd.detachCmd => detachClusterBlocks s
  | Cmd.attachCmd => attachClusterBlocks s
  | Cmd.saveEditCmd t c wOpt hOpt => saveEdit t c wOpt hOpt s
  | Cmd.moveBlockCmd bid p => moveBlock bid p s
  | Cmd.moveClusterCmd cid p => moveCluster cid p s
  | Cmd.fixCmd => fixCurrent s
  | Cmd.unfixCmd => unfixCurrent s
  | Cmd.setCurrentBlockCmd bid => clickBlock bid s
  | Cmd.setCurrentClusterCmd cid => clickCluster cid s
  | Cmd.startConnectionCmd bid o => startConnection bid o s
  | Cmd.endConnectionCmd bid o => endConnection bid o s
  | Cmd.cancelConnectionCmd => cancelConnection s
  | Cmd.changeColorCmd copt => changeColor copt s
  | Cmd.newFileCmd => newFile s
  | Cmd.openFileCmd parsed => (openFile parsed s).1
  | Cmd.lockToggleCmd b => { s with editLocked := b }
  | Cmd.dockClosedCmd => { s with editLocked := false, currentBlock := none,
                                  currentCluster := none }

/-- A session: the events run from the initial editor state. -/
def runCmds (cmds : List Cmd) : GraphEditor :=
  cmds.foldl step initState

/-- Whether a connections[] entry's two block ids resolve against a registry. -/
def resolvesIn (bs : List (Int × GraphBlock)) (cd : ConnData) : Bool :=
  (lookupKey cd.start_block_id bs).isSome && (lookupKey cd.end_block_id bs).isSome

/-- The connection object stored for a connections[] entry whose ids resolve
and whose start anchor name is valid. -/
def connOfData (cd : ConnData) : GraphConnection :=
  { start_anchor := (cd.start_block_id, (anchorOfString cd.start_anchor).getD Orientation.top),
    end_anchor := (anchorOfString cd.end_anchor).map (fun eo => (cd.end_block_id, eo)) }

/-- The block ids a document declares. -/
def docBlockIds (doc : Document) : List Int := doc.blocks.map BlockData.id

/-- A document in which ids are unique per namespace, every cluster has a
nonempty fully-resolving member list, and every connection resolves both
endpoints with valid anchor names. -/
def docWellFormed (doc : Document) : Prop :=
  (doc.blocks.map BlockData.id).Nodup ∧
  (doc.clusters.map ClusterData.id).Nodup ∧
  (∀ cd ∈ doc.clusters, cd.block_ids ≠ [] ∧ ∀ bid ∈ cd.block_ids, bid ∈ docBlockIds doc) ∧
  (∀ cn ∈ doc.connections,
    cn.start_block_id ∈ docBlockIds doc ∧ cn.end_block_id ∈ docBlockIds doc ∧
    (anchorOfString cn.start_anchor).isSome ∧ (anchorOfString cn.end_anchor).isSome)

/-- Whether every block of a state satisfies the anchor/rect well-formedness
that updateAnchors establishes. -/
def blockWF (b : GraphBlock) : Prop :=
  b.rect.x = 0 ∧ b.rect.y = 0 ∧ b.anchors = updateAnchors b.rect

/-- The anchor invariant over a whole editor state. -/
def stateBlocksWF (s : GraphEditor) : Prop :=
  ∀ p ∈ s.blocks, blockWF p.2

/-- Agreement of two editor states on everything the document model reads:
registries, connections, counters and edit focus (the transient edit lock and
pending connection may differ). -/
def coreEq (s t : GraphEditor) : Prop :=
  s.block_id_counter = t.block_id_counter ∧
  s.cluster_id_counter = t.cluster_id_counter ∧
  s.blocks = t.blocks ∧
  s.clusters = t.clusters ∧
  s.connections = t.connections ∧
  s.currentBlock = t.currentBlock ∧
  s.currentCluster = t.currentCluster

/-- A throwaway cluster value used only as an Option.getD fallback in
concrete instantiations. -/
def defaultGraphCluster : GraphCluster :=
  { title := "", color := "", locked := false, pos := (0, 0),
    rect := { x := 0, y := 0, w := 0, h := 0 }, blocks := [] }

/-- A throwaway block value used only as an Option.getD fallback in concrete
instantiations. -/
def defaultGraphBlock : GraphBlock :=
  mkGraphBlock { x := 0, y := 0, w := 1, h := 1 } ""

/-- A blocks[] entry with the given id at the given position. -/
def sampleBlockData (i : Int) (px py : ℚ) : BlockData :=
  { id := i, title := "b" ++ toString i, content := "", x := px, y := py,
    width := 100, height := 50, color := "#ffffff", locked := false }

/-- C1 counterexample input: a document with one block and one cluster whose
block_ids list is empty (all of its zero member ids resolve). -/
def cexDoc1 : Document :=
  { blocks := [sampleBlockData 1 0 0],
    clusters := [{ id := 1, title := "c", color := "#ffeeaa", block_ids := [], locked := false }],
    connections := [] }

/-- C1 witness input: two blocks, a nonempty cluster, one valid connection. -/
def witDoc1 : Document :=
  { blocks := [sampleBlockData 1 5 6, sampleBlockData 2 200 6],
    clusters := [{ id := 3, title := "c3", color := "#ffeeaa", block_ids := [1], locked := true }],
    connections := [{ start_block_id := 1, start_anchor := "right",
                      end_block_id := 2, end_anchor := "left" }] }

/-- C2 counterexample input: both ids of the connection resolve but the start
anchor name is not a valid orientation. -/
def cexDoc2 : Document :=
  { blocks := [sampleBlockData 1 0 0, sampleBlockData 2 300 0],
    clusters := [],
    connections := [{ start_block_id := 1, start_anchor := "middle",
                      end_block_id := 2, end_anchor := "left" }] }

/-- C2 witness input: one connection with an unresolvable end id, one fully
valid connection, and one whose end anchor name is invalid. -/
def witDoc2 : Document :=
  { blocks := [sampleBlockData 1 0 0, sampleBlockData 2 300 0],
    clusters := [],
    connections := [{ start_block_id := 1, start_anchor := "right",
                      end_block_id := 5, end_anchor := "left" },
                    { start_block_id := 1, start_anchor := "top",
                      end_block_id := 2, end_anchor := "bottom" },
                    { start_block_id := 1, start_anchor := "right",
                      end_block_id := 2, end_anchor := "zzz" }] }

/-- C3 counterexample: the pre-load state holds one block. -/
def cexS3 : GraphEditor := runCmds [Cmd.addBlockCmd 10 10]

/-- C3 counterexample input: a parseable document whose connection entry
resolves (block 7) but carries an invalid start anchor name, so the load
raises partway through reconstruction. -/
def cexDoc3 : Document :=
  { blocks := [sampleBlockData 7 1 1],
    clusters := [],
    connections := [{ start_block_id := 7, start_anchor := "xxx",
                      end_block_id := 7, end_anchor := "left" }] }

/-- C4 counterexample: block 1 is unparented at (60, 20); blocks 2 and 3 are
grouped into cluster 1, which is then dragged to (50, 0) and selected. -/
def cexS4 : GraphEditor :=
  runCmds [Cmd.addBlockCmd 60 20, Cmd.addBlockCmd 0 0, Cmd.addBlockCmd 10 10,
           Cmd.groupCmd [SelItem.block 2, SelItem.block 3],
           Cmd.moveClusterCmd 1 (50, 0), Cmd.setCurrentClusterCmd 1]

/-- C4 witness state for the grouping half: two unparented blocks. -/
def witS4a : GraphEditor := runCmds [Cmd.addBlockCmd 5 6, Cmd.addBlockCmd 100 100]

/-- C4 witness state for the attach half: cluster 1 still at the origin and
selected, block 1 unparented inside its rect. -/
def witS4b : GraphEditor :=
  runCmds [Cmd.addBlockCmd 60 20, Cmd.addBlockCmd 0 0, Cmd.addBlockCmd 10 10,
           Cmd.groupCmd [SelItem.block 2, SelItem.block 3],
           Cmd.setCurrentClusterCmd 1]

/-- C5 counterexample: blocks 1 and 2 grouped into cluster 1, the cluster
dragged to (50, 0) and selected, ready to detach. -/
def cexS5 : GraphEditor :=
  runCmds [Cmd.addBlockCmd 0 0, Cmd.addBlockCmd 10 10,
           Cmd.groupCmd [SelItem.block 1, SelItem.block 2],
           Cmd.moveClusterCmd 1 (50, 0), Cmd.setCurrentClusterCmd 1]

/-- C5 witness state: a selected cluster that has not been moved. -/
def witS5 : GraphEditor :=
  runCmds [Cmd.addBlockCmd 3 4, Cmd.addBlockCmd 20 30,
           Cmd.groupCmd [SelItem.block 1, SelItem.block 2],
           Cmd.setCurrentClusterCmd 1]

/-- C6 counterexample input: a document that declares cluster id 1. -/
def cexDoc6 : Document :=
  { blocks := [sampleBlockData 1 0 0, sampleBlockData 2 300 0],
    clusters := [{ id := 1, title := "loaded", color := "#aaaaaa",
                   block_ids := [1, 2], locked := false }],
    connections := [] }

/-- C6 counterexample: the state immediately after loading cexDoc6. -/
def cexS6 : GraphEditor := (openFile (Except.ok cexDoc6) initState).1

/-- C6 witness input: a document with one block of id 10 and no clusters. -/
def witDoc6 : Document :=
  { blocks := [sampleBlockData 10 0 0], clusters := [], connections := [] }

/-- C7 witness session: a single added block. -/
def witCmds7 : List Cmd := [Cmd.addBlockCmd 7 8]

/-- C8 witness state: three blocks and three committed connections, two of
which touch block 1. -/
def witS8 : GraphEditor :=
  runCmds [Cmd.addBlockCmd 0 0, Cmd.addBlockCmd 300 0, Cmd.addBlockCmd 0 300,
           Cmd.startConnectionCmd 1 Orientation.right,
           Cmd.endConnectionCmd 2 Orientation.left,
           Cmd.startConnectionCmd 3 Orientation.top,
           Cmd.endConnectionCmd 1 Orientation.bottom,
           Cmd.startConnectionCmd 2 Orientation.right,
           Cmd.endConnectionCmd 3 Orientation.left]

/-- C9 input: a selected cluster, about to be resized through the edit panel. -/
def bugS9 : GraphEditor :=
  runCmds [Cmd.addBlockCmd 0 0, Cmd.addBlockCmd 30 30,
           Cmd.groupCmd [SelItem.block 1, SelItem.block 2],
           Cmd.setCurrentClusterCmd 1]

/-- C9: the state after entering width 222 and height 99 and saving. -/
def bugS9after : GraphEditor := saveEdit "T" "" (some 222) (some 99) bugS9

/-- C10 witness state: blocks 1 and 2 grouped into cluster 1. -/
def witS10 : GraphEditor :=
  runCmds [Cmd.addBlockCmd 0 0, Cmd.addBlockCmd 10 10,
           Cmd.groupCmd [SelItem.block 1, SelItem.block 2]]

/-- The cluster registered under id 1 in witS10. -/
def witC10cluster : GraphCluster :=
  (lookupKey 1 witS10.clusters).getD defaultGraphCluster

instance (doc : Document) : Decidable (docWellFormed doc) := by
  unfold docWellFormed
  infer_instance

instance (b : GraphBlock) : Decidable (blockWF b) := by
  unfold blockWF
  infer_instance

/- ## Association-list lemmas (Python dict semantics) -/

theorem lookupKey_isSome_iff_mem_keysOf {α : Type} (j : Int) (l : List (Int × α)) :
    (lookupKey j l).isSome = true ↔ j ∈ keysOf l := by
  induction l with
  | nil => simp [lookupKey, keysOf]
  | cons p rest ih =>
    by_cases hp : p.1 = j
    · simp [lookupKey, keysOf, hp]
    · have hjp : ¬ j = p.1 := fun hc => hp hc.symm
      simp [lookupKey, keysOf, hp, hjp, ih]

theorem dictInsert_of_not_mem {α : Type} (l : List (Int × α)) (k : Int) (v : α)
    (h : k ∉ keysOf l) : dictInsert l k v = l ++ [(k, v)] := by
  induction l with
  | nil => rfl
  | cons p rest ih =>
    have hp : p.1 ≠ k := by
      intro hc
      exact h (by simp [keysOf, hc])
    have hr : k ∉ keysOf rest := by
      intro hc
      exact h (by simp [keysOf] at hc ⊢; exact Or.inr hc)
    simp [dictInsert, hp, ih hr]

theorem mem_dictInsert {α : Type} (l : List (Int × α)) (k : Int) (v : α) (p : Int × α)
    (h : p ∈ dictInsert l k v) : p ∈ l ∨ p = (k, v) := by
  induction l with
  | nil => simp [dictInsert] at h; simp [h]
  | cons q rest ih =>
    by_cases hq : q.1 = k
    · simp [dictInsert, hq] at h
      rcases h with h | h
      · right; simp [h]
      · left; simp [h]
    · simp [dictInsert, hq] at h
      rcases h with h | h
      · left; simp [h]
      · rcases ih h with h2 | h2
        · left; simp [h2]
        · right; exact h2

theorem lookupKey_dictInsert_self {α : Type} (l : List (Int × α)) (k : Int) (v : α) :
    lookupKey k (dictInsert l k v) = some v := by
  induction l with
  | nil => simp [dictInsert, lookupKey]
  | cons q rest ih =>
    by_cases hq : q.1 = k
    · simp [dictInsert, hq, lookupKey]
    · simp [dictInsert, hq, lookupKey, ih]

theorem lookupKey_append_left {α : Type} (j : Int) (l l2 : List (Int × α))
    (h : (lookupKey j l).isSome = true) :
    lookupKey j (l ++ l2) = lookupKey j l := by
  induction l with
  | nil => simp [lookupKey] at h
  | cons p rest ih =>
    by_cases hp : p.1 = j
    · simp [lookupKey, hp]
    · simp [lookupKey, hp] at h ⊢
      exact ih h

theorem removeKey_cons_of_eq {α : Type} (k : Int) (p : Int × α) (rest : List (Int × α))
    (hp : p.1 = k) : removeKey k (p :: rest) = removeKey k rest := by
  simp [removeKey, List.filter_cons, hp]

theorem removeKey_cons_of_ne {α : Type} (k : Int) (p : Int × α) (rest : List (Int × α))
    (hp : ¬ p.1 = k) : removeKey k (p :: rest) = p :: removeKey k rest := by
  simp [removeKey, List.filter_cons, hp]

theorem lookupKey_removeKey {α : Type} (j k : Int) (l : List (Int × α)) :
    lookupKey j (removeKey k l) = if j = k then none else lookupKey j l := by
  induction l with
  | nil =>
    simp only [removeKey, List.filter_nil, lookupKey]
    split <;> rfl
  | cons p rest ih =>
    by_cases hp : p.1 = k
    · rw [removeKey_cons_of_eq k p rest hp, ih]
      by_cases hj : j = k
      · simp [hj]
      · have hpj : ¬ p.1 = j := fun hc => hj (by rw [← hc, hp])
        simp [hj, lookupKey, hpj]
    · rw [removeKey_cons_of_ne k p rest hp]
      by_cases hpj : p.1 = j
      · have hj : ¬ j = k := fun hc => hp (by rw [hpj, hc])
        simp [lookupKey, hpj, hj]
      · simp only [lookupKey, if_neg hpj]
        exact ih

theorem lookupKey_mapValue {α : Type} (l : List (Int × α)) (k j : Int) (f : α → α) :
    lookupKey j (mapValue l k f) =
      if j = k then (lookupKey j l).map f else lookupKey j l := by
  induction l with
  | nil =>
    simp only [mapValue, List.map_nil, lookupKey]
    split <;> rfl
  | cons p rest ih =>
    have hmv : mapValue (p :: rest) k f =
        (if p.1 = k then (p.1, f p.2) else p) :: mapValue rest k f := by
      simp [mapValue]
    rw [hmv]
    by_cases hp : p.1 = k
    · rw [if_pos hp]
      by_cases hpj : p.1 = j
      · have hjk : j = k := by rw [← hpj, hp]
        simp [lookupKey, hpj, hjk]
      · have hjk : ¬ j = k := fun hc => hpj (by rw [hp, hc])
        simp only [lookupKey, if_neg hpj, if_neg hjk] at ih ⊢
        first
        | rfl
        | exact ih
    · rw [if_neg hp]
      by_cases hpj : p.1 = j
      · have hjk : ¬ j = k := fun hc => hp (by rw [hpj, hc])
        simp [lookupKey, hpj, hjk]
      · simp only [lookupKey, if_neg hpj]
        exact ih

theorem keysOf_mapValue {α : Type} (l : List (Int × α)) (k : Int) (f : α → α) :
    keysOf (mapValue l k f) = keysOf l := by
  induction l with
  | nil => rfl
  | cons p rest ih =>
    by_cases hp : p.1 = k <;> simp [mapValue, keysOf, hp] at ih ⊢ <;> exact ih

theorem lookupKey_foldl_mapValue {α : Type} (K : List Int) (l : List (Int × α))
    (j : Int) (f : α → α) (hf : ∀ a, f (f a) = f a) :
    lookupKey j (K.foldl (fun bs k => mapValue bs k f) l) =
      if j ∈ K then (lookupKey j l).map f else lookupKey j l := by
  induction K generalizing l with
  | nil => simp
  | cons k K ih =>
    rw [List.foldl_cons, ih]
    by_cases hjk : j = k
    · subst hjk
      by_cases hjK : j ∈ K <;>
        · simp only [hjK, lookupKey_mapValue, if_pos rfl, List.mem_cons, true_or, or_true,
            if_true, Option.map_map]
          cases lookupKey j l <;> simp [hf, Function.comp]
    · by_cases hjK : j ∈ K <;> simp [hjK, hjk, lookupKey_mapValue]

theorem mem_selectedBlocks (sel : List SelItem) (s : GraphEditor) (p : Int × GraphBlock)
    (h : p ∈ selectedBlocks sel s) : lookupKey p.1 s.blocks = some p.2 := by
  induction sel with
  | nil => simp [selectedBlocks] at h
  | cons it rest ih =>
    cases it with
    | cluster cid =>
      rw [selectedBlocks] at h
      exact ih h
    | block bid =>
      rw [selectedBlocks] at h
      cases hl : lookupKey bid s.blocks with
      | none =>
        rw [hl] at h
        exact ih h
      | some b =>
        rw [hl] at h
        rcases List.mem_cons.mp h with h2 | h2
        · rw [h2]
          exact hl
        · exact ih h2

/- ## Frame lemmas for the three phases of openFile -/

theorem loadBlock_frame (s : GraphEditor) (bd : BlockData) :
    (loadBlock s bd).clusters = s.clusters ∧
    (loadBlock s bd).connections = s.connections ∧
    (loadBlock s bd).cluster_id_counter = s.cluster_id_counter ∧
    (loadBlock s bd).currentBlock = s.currentBlock ∧
    (loadBlock s bd).currentCluster = s.currentCluster := by
  simp only [loadBlock]
  split <;> exact ⟨rfl, rfl, rfl, rfl, rfl⟩

theorem loadBlocksAux_frame (l : List BlockData) (s : GraphEditor) :
    (loadBlocksAux l s).clusters = s.clusters ∧
    (loadBlocksAux l s).connections = s.connections ∧
    (loadBlocksAux l s).cluster_id_counter = s.cluster_id_counter ∧
    (loadBlocksAux l s).currentBlock = s.currentBlock ∧
    (loadBlocksAux l s).currentCluster = s.currentCluster := by
  induction l generalizing s with
  | nil => exact ⟨rfl, rfl, rfl, rfl, rfl⟩
  | cons bd rest ih =>
    have h1 := loadBlock_frame s bd
    have h2 := ih (loadBlock s bd)
    rw [loadBlocksAux]
    exact ⟨h2.1.trans h1.1, h2.2.1.trans h1.2.1, h2.2.2.1.trans h1.2.2.1,
           h2.2.2.2.1.trans h1.2.2.2.1, h2.2.2.2.2.trans h1.2.2.2.2⟩

theorem loadCluster_frame (s : GraphEditor) (cd : ClusterData) :
    (loadCluster s cd).blocks = s.blocks ∧
    (loadCluster s cd).connections = s.connections ∧
    (loadCluster s cd).block_id_counter = s.block_id_counter ∧
    (loadCluster s cd).cluster_id_counter = s.cluster_id_counter ∧
    (loadCluster s cd).currentBlock = s.currentBlock ∧
    (loadCluster s cd).currentCluster = s.currentCluster := by
  simp only [loadCluster]
  split <;> exact ⟨rfl, rfl, rfl, rfl, rfl, rfl⟩

theorem loadClustersAux_frame (l : List ClusterData) (s : GraphEditor) :
    (loadClustersAux l s).blocks = s.blocks ∧
    (loadClustersAux l s).connections = s.connections ∧
    (loadClustersAux l s).block_id_counter = s.block_id_counter ∧
    (loadClustersAux l s).cluster_id_counter = s.cluster_id_counter ∧
    (loadClustersAux l s).currentBlock = s.currentBlock ∧
    (loadClustersAux l s).currentCluster = s.currentCluster := by
  induction l generalizing s with
  | nil => exact ⟨rfl, rfl, rfl, rfl, rfl, rfl⟩
  | cons cd rest ih =>
    have h1 := loadCluster_frame s cd
    have h2 := ih (loadCluster s cd)
    rw [loadClustersAux]
    exact ⟨h2.1.trans h1.1, h2.2.1.trans h1.2.1, h2.2.2.1.trans h1.2.2.1,
           h2.2.2.2.1.trans h1.2.2.2.1, h2.2.2.2.2.1.trans h1.2.2.2.2.1,
           h2.2.2.2.2.2.trans h1.2.2.2.2.2⟩

theorem loadConnsAux_frame (l : List ConnData) (s : GraphEditor) :
    (loadConnsAux l s).1.blocks = s.blocks ∧
    (loadConnsAux l s).1.clusters = s.clusters ∧
    (loadConnsAux l s).1.block_id_counter = s.block_id_counter ∧
    (loadConnsAux l s).1.cluster_id_counter = s.cluster_id_counter ∧
    (loadConnsAux l s).1.currentBlock = s.currentBlock ∧
    (loadConnsAux l s).1.currentCluster = s.currentCluster := by
  induction l generalizing s with
  | nil => exact ⟨rfl, rfl, rfl, rfl, rfl, rfl⟩
  | cons cd rest ih =>
    rw [loadConnsAux]
    split
    · cases hso : anchorOfString cd.start_anchor with
      | none => exact ⟨rfl, rfl, rfl, rfl, rfl, rfl⟩
      | some so => exact ih _
    · exact ih s

/- ## Specification of the three phases of openFile -/

theorem lookupKey_some_mem {α : Type} (k : Int) (l : List (Int × α)) (v : α)
    (h : lookupKey k l = some v) : (k, v) ∈ l := by
  induction l with
  | nil => simp [lookupKey] at h
  | cons p rest ih =>
    by_cases hp : p.1 = k
    · rw [lookupKey, if_pos hp] at h
      have hv : v = p.2 := by
        injection h with h2
        exact h2.symm
      have hkv : (k, v) = p := by
        have hpeta : p = (p.1, p.2) := rfl
        rw [hpeta, ← hp, hv]
      rw [hkv]
      exact List.mem_cons_self p rest
    · rw [lookupKey, if_neg hp] at h
      exact List.mem_cons_of_mem _ (ih h)

theorem loadBlock_blocks (s : GraphEditor) (bd : BlockData) :
    (loadBlock s bd).blocks = dictInsert s.blocks bd.id (blockOfData bd) := by
  simp only [loadBlock]
  split <;> rfl

theorem loadBlocksAux_blocks_spec (l : List BlockData) (s : GraphEditor)
    (hdisj : ∀ bd ∈ l, bd.id ∉ keysOf s.blocks)
    (hnodup : (l.map BlockData.id).Nodup) :
    (loadBlocksAux l s).blocks =
      s.blocks ++ l.map (fun bd => (bd.id, blockOfData bd)) := by
  induction l generalizing s with
  | nil => simp [loadBlocksAux]
  | cons bd rest ih =>
    have h1 : bd.id ∉ keysOf s.blocks := hdisj bd (List.mem_cons_self bd rest)
    have hb : (loadBlock s bd).blocks = s.blocks ++ [(bd.id, blockOfData bd)] := by
      rw [loadBlock_blocks, dictInsert_of_not_mem _ _ _ h1]
    have hkeys : keysOf (loadBlock s bd).blocks = keysOf s.blocks ++ [bd.id] := by
      rw [hb]
      simp [keysOf]
    have hnodup2 : (rest.map BlockData.id).Nodup := (List.nodup_cons.mp hnodup).2
    have hbdid : bd.id ∉ rest.map BlockData.id := (List.nodup_cons.mp hnodup).1
    have hdisj2 : ∀ b2 ∈ rest, b2.id ∉ keysOf (loadBlock s bd).blocks := by
      intro b2 hb2
      rw [hkeys]
      intro hmem
      rcases List.mem_append.mp hmem with hm | hm
      · exact hdisj b2 (List.mem_cons_of_mem _ hb2) hm
      · have he : b2.id = bd.id := by simpa using hm
        have : bd.id ∈ rest.map BlockData.id := by
          rw [← he]
          exact List.mem_map_of_mem BlockData.id hb2
        exact hbdid this
    rw [loadBlocksAux, ih _ hdisj2 hnodup2, hb]
    simp

theorem blockOfData_parent (bd : BlockData) : (blockOfData bd).parent = none := rfl

theorem scenePosOfBlock_of_parent_none (s : GraphEditor) (b : GraphBlock)
    (h : b.parent = none) : scenePosOfBlock s b = b.pos := by
  rw [scenePosOfBlock, h]

theorem sceneBoundingRect_congr (s t : GraphEditor) (b : GraphBlock)
    (h : b.parent = none) : sceneBoundingRect t b = sceneBoundingRect s b := by
  rw [sceneBoundingRect, sceneBoundingRect,
      scenePosOfBlock_of_parent_none t b h, scenePosOfBlock_of_parent_none s b h]

theorem foldl_united_ext (s t : GraphEditor) : ∀ (l2 : List GraphBlock),
    (∀ b2 ∈ l2, sceneBoundingRect t b2 = sceneBoundingRect s b2) → ∀ r : RectQ,
    l2.foldl (fun r2 blk => rectUnited r2 (sceneBoundingRect t blk)) r =
      l2.foldl (fun r2 blk => rectUnited r2 (sceneBoundingRect s blk)) r := by
  intro l2
  induction l2 with
  | nil =>
    intro _ r
    rfl
  | cons b2 rest2 ih2 =>
    intro h r
    rw [List.foldl_cons, List.foldl_cons, h b2 (List.mem_cons_self b2 rest2)]
    exact ih2 (fun b3 hb3 => h b3 (List.mem_cons_of_mem _ hb3)) _

theorem computeBoundingRect_ext (s t : GraphEditor) (bs : List GraphBlock)
    (h : ∀ b ∈ bs, sceneBoundingRect t b = sceneBoundingRect s b) :
    computeBoundingRect t bs = computeBoundingRect s bs := by
  cases bs with
  | nil => rfl
  | cons b rest =>
    rw [computeBoundingRect, computeBoundingRect, h b (List.mem_cons_self b rest),
        foldl_united_ext s t rest (fun b3 hb3 => h b3 (List.mem_cons_of_mem _ hb3))]

theorem computeBoundingRect_congr (s t : GraphEditor) (bs : List GraphBlock)
    (h : ∀ b ∈ bs, b.parent = none) :
    computeBoundingRect t bs = computeBoundingRect s bs :=
  computeBoundingRect_ext s t bs (fun b hb => sceneBoundingRect_congr s t b (h b hb))

theorem scenePosOfBlock_clusters_congr (s t : GraphEditor) (b : GraphBlock)
    (hcl : t.clusters = s.clusters) : scenePosOfBlock t b = scenePosOfBlock s b := by
  rw [scenePosOfBlock, scenePosOfBlock, hcl]

theorem sceneBoundingRect_clusters_congr (s t : GraphEditor) (b : GraphBlock)
    (hcl : t.clusters = s.clusters) : sceneBoundingRect t b = sceneBoundingRect s b := by
  rw [sceneBoundingRect, sceneBoundingRect, scenePosOfBlock_clusters_congr s t b hcl]

theorem resolvedBlocks_parent_none (s : GraphEditor) (cd : ClusterData)
    (hpar : ∀ p ∈ s.blocks, p.2.parent = none) :
    ∀ b ∈ resolvedBlocks s cd, b.parent = none := by
  intro b hb
  rw [resolvedBlocks] at hb
  obtain ⟨bid, _, hl⟩ := List.mem_filterMap.mp hb
  exact hpar (bid, b) (lookupKey_some_mem bid s.blocks b hl)

theorem resolvedBlocks_congr (s t : GraphEditor) (cd : ClusterData)
    (hb : t.blocks = s.blocks) : resolvedBlocks t cd = resolvedBlocks s cd := by
  rw [resolvedBlocks, resolvedBlocks, hb]

theorem resolvedIds_congr (s t : GraphEditor) (cd : ClusterData)
    (hb : t.blocks = s.blocks) : resolvedIds t cd = resolvedIds s cd := by
  rw [resolvedIds, resolvedIds, hb]

theorem clusterOfData_congr (s t : GraphEditor) (cd : ClusterData)
    (hb : t.blocks = s.blocks) (hpar : ∀ p ∈ s.blocks, p.2.parent = none) :
    clusterOfData t cd = clusterOfData s cd := by
  rw [clusterOfData, clusterOfData, resolvedBlocks_congr s t cd hb,
      resolvedIds_congr s t cd hb,
      computeBoundingRect_congr s t (resolvedBlocks s cd)
        (resolvedBlocks_parent_none s cd hpar)]

theorem resolvedBlocks_isEmpty_false (s : GraphEditor) (cd : ClusterData)
    (hne : cd.block_ids ≠ [])
    (hsub : ∀ bid ∈ cd.block_ids, (lookupKey bid s.blocks).isSome = true) :
    (resolvedBlocks s cd).isEmpty = false := by
  cases hl : cd.block_ids with
  | nil => exact absurd hl hne
  | cons bid0 restIds =>
    have h0 : (lookupKey bid0 s.blocks).isSome = true := by
      apply hsub
      rw [hl]
      exact List.mem_cons_self bid0 restIds
    obtain ⟨v, hv⟩ := Option.isSome_iff_exists.mp h0
    rw [resolvedBlocks, hl]
    simp [List.filterMap_cons, hv]

theorem loadCluster_of_resolving (s : GraphEditor) (cd : ClusterData)
    (hne : cd.block_ids ≠ [])
    (hsub : ∀ bid ∈ cd.block_ids, (lookupKey bid s.blocks).isSome = true) :
    loadCluster s cd =
      { s with clusters := dictInsert s.clusters cd.id (clusterOfData s cd) } := by
  rw [loadCluster]
  rw [resolvedBlocks_isEmpty_false s cd hne hsub]
  rfl

theorem resolvedIds_of_all_resolving (s : GraphEditor) (cd : ClusterData)
    (hsub : ∀ bid ∈ cd.block_ids, (lookupKey bid s.blocks).isSome = true) :
    resolvedIds s cd = cd.block_ids := by
  rw [resolvedIds]
  exact List.filter_eq_self.mpr hsub

theorem loadClustersAux_spec (l : List ClusterData) (s : GraphEditor)
    (hdisj : ∀ cd ∈ l, cd.id ∉ keysOf s.clusters)
    (hnodup : (l.map ClusterData.id).Nodup)
    (hres : ∀ cd ∈ l, cd.block_ids ≠ [] ∧
      ∀ bid ∈ cd.block_ids, (lookupKey bid s.blocks).isSome = true)
    (hpar : ∀ p ∈ s.blocks, p.2.parent = none) :
    (loadClustersAux l s).clusters =
      s.clusters ++ l.map (fun cd => (cd.id, clusterOfData s cd)) := by
  induction l generalizing s with
  | nil => simp [loadClustersAux]
  | cons cd rest ih =>
    have hcd := hres cd (List.mem_cons_self cd rest)
    have hstep : loadCluster s cd =
        { s with clusters := dictInsert s.clusters cd.id (clusterOfData s cd) } :=
      loadCluster_of_resolving s cd hcd.1 hcd.2
    have h1 : cd.id ∉ keysOf s.clusters := hdisj cd (List.mem_cons_self cd rest)
    have hc : (loadCluster s cd).clusters = s.clusters ++ [(cd.id, clusterOfData s cd)] := by
      rw [hstep]
      exact dictInsert_of_not_mem _ _ _ h1
    have hbsame : (loadCluster s cd).blocks = s.blocks := (loadCluster_frame s cd).1
    have hnodup2 : (rest.map ClusterData.id).Nodup := (List.nodup_cons.mp hnodup).2
    have hcdid : cd.id ∉ rest.map ClusterData.id := (List.nodup_cons.mp hnodup).1
    have hdisj2 : ∀ c2 ∈ rest, c2.id ∉ keysOf (loadCluster s cd).clusters := by
      intro c2 hc2
      rw [hc]
      intro hmem
      have hkeys : keysOf (s.clusters ++ [(cd.id, clusterOfData s cd)]) =
          keysOf s.clusters ++ [cd.id] := by
        simp [keysOf]
      rw [hkeys] at hmem
      rcases List.mem_append.mp hmem with hm | hm
      · exact hdisj c2 (List.mem_cons_of_mem _ hc2) hm
      · have he : c2.id = cd.id := by simpa using hm
        have : cd.id ∈ rest.map ClusterData.id := by
          rw [← he]
          exact List.mem_map_of_mem ClusterData.id hc2
        exact hcdid this
    have hres2 : ∀ c2 ∈ rest, c2.block_ids ≠ [] ∧
        ∀ bid ∈ c2.block_ids, (lookupKey bid (loadCluster s cd).blocks).isSome = true := by
      intro c2 hc2
      rw [hbsame]
      exact hres c2 (List.mem_cons_of_mem _ hc2)
    have hpar2 : ∀ p ∈ (loadCluster s cd).blocks, p.2.parent = none := by
      rw [hbsame]
      exact hpar
    rw [loadClustersAux, ih _ hdisj2 hnodup2 hres2 hpar2, hc]
    have hmap : rest.map (fun c2 => (c2.id, clusterOfData (loadCluster s cd) c2)) =
        rest.map (fun c2 => (c2.id, clusterOfData s c2)) := by
      apply List.map_congr_left
      intro c2 _
      rw [clusterOfData_congr s (loadCluster s cd) c2 hbsame hpar]
    rw [hmap]
    simp

theorem filterMap_if_all {α β : Type} (p : α → Bool) (g : α → β) (l : List α)
    (h : ∀ a ∈ l, p a = true) :
    l.filterMap (fun a => if p a then some (g a) else none) = l.map g := by
  induction l with
  | nil => rfl
  | cons a rest ih =>
    have ha : p a = true := h a (List.mem_cons_self a rest)
    have hfa : (fun x => if p x then some (g x) else none) a = some (g a) := by
      simp [ha]
    rw [@List.filterMap_cons_some _ _ (fun x => if p x then some (g x) else none) a rest
          (g a) hfa,
        List.map_cons, ih (fun a2 h2 => h a2 (List.mem_cons_of_mem _ h2))]

theorem filterMap_all_some {α : Type} (f : α → Option α) (l : List α)
    (h : ∀ a ∈ l, f a = some a) : l.filterMap f = l := by
  induction l with
  | nil => rfl
  | cons a rest ih =>
    rw [List.filterMap_cons_some (h a (List.mem_cons_self a rest)),
        ih (fun a2 h2 => h a2 (List.mem_cons_of_mem _ h2))]

theorem loadConnsAux_cons_resolving (cd : ConnData) (rest : List ConnData)
    (s : GraphEditor) (so : Orientation)
    (hcond : ((lookupKey cd.start_block_id s.blocks).isSome
      && (lookupKey cd.end_block_id s.blocks).isSome) = true)
    (hso : anchorOfString cd.start_anchor = some so) :
    loadConnsAux (cd :: rest) s = loadConnsAux rest
      ({ s with connections := s.connections ++
          [{ start_anchor := (cd.start_block_id, so),
             end_anchor := (anchorOfString cd.end_anchor).map
                             (fun eo => (cd.end_block_id, eo)) }] } : GraphEditor) := by
  rw [loadConnsAux, if_pos hcond, hso]

theorem loadConnsAux_spec (l : List ConnData) (s : GraphEditor)
    (hsafe : ∀ cd ∈ l, resolvesIn s.blocks cd = true →
      (anchorOfString cd.start_anchor).isSome = true) :
    loadConnsAux l s =
      ({ s with connections := s.connections ++
          l.filterMap (fun cd =>
            if resolvesIn s.blocks cd then some (connOfData cd) else none) },
       none) := by
  induction l generalizing s with
  | nil =>
    simp [loadConnsAux]
  | cons cd rest ih =>
    by_cases hres : resolvesIn s.blocks cd = true
    · obtain ⟨so, hso⟩ := Option.isSome_iff_exists.mp
        (hsafe cd (List.mem_cons_self cd rest) hres)
      have hcond : ((lookupKey cd.start_block_id s.blocks).isSome
          && (lookupKey cd.end_block_id s.blocks).isSome) = true := hres
      have hconn :
          ({ start_anchor := (cd.start_block_id, so),
             end_anchor := (anchorOfString cd.end_anchor).map
                             (fun eo => (cd.end_block_id, eo)) } : GraphConnection) =
            connOfData cd := by
        rw [connOfData, hso]
        rfl
      rw [loadConnsAux_cons_resolving cd rest s so hcond hso, hconn]
      rw [ih ({ s with connections := s.connections ++ [connOfData cd] } : GraphEditor)
          (fun c2 h2 hr2 => hsafe c2 (List.mem_cons_of_mem _ h2) hr2)]
      have hfc : (fun c2 => if resolvesIn s.blocks c2 then some (connOfData c2) else none) cd =
          some (connOfData cd) := by
        simp [hres]
      rw [@List.filterMap_cons_some _ _
            (fun c2 => if resolvesIn s.blocks c2 then some (connOfData c2) else none)
            cd rest (connOfData cd) hfc]
      simp
    · have hcond : ¬ ((lookupKey cd.start_block_id s.blocks).isSome
          && (lookupKey cd.end_block_id s.blocks).isSome) = true := hres
      rw [loadConnsAux, if_neg hcond]
      rw [ih s (fun c2 h2 hr2 => hsafe c2 (List.mem_cons_of_mem _ h2) hr2)]
      have hfc : (fun c2 => if resolvesIn s.blocks c2 then some (connOfData c2) else none) cd =
          none := by
        simp [hres]
      rw [@List.filterMap_cons_none _ _
            (fun c2 => if resolvesIn s.blocks c2 then some (connOfData c2) else none)
            cd rest hfc]

theorem orientToString_anchorOfString (str : String) (o : Orientation)
    (h : anchorOfString str = some o) : orientToString o = str := by
  unfold anchorOfString at h
  split_ifs at h with h1 h2 h3 h4
  · injection h with h5
    rw [← h5, h1]
    rfl
  · injection h with h5
    rw [← h5, h2]
    rfl
  · injection h with h5
    rw [← h5, h3]
    rfl
  · injection h with h5
    rw [← h5, h4]
    rfl

/- ## Claim C1: round-trip of load and save -/

/-- Claim C1 (counterexample): the claim as stated is false.  The document
cexDoc1 has one block, no connections, and one cluster all of whose (zero)
member ids resolve; loading it drops the empty cluster, so saving does not
reproduce the document. -/
theorem c1_roundtrip_counterexample :
    (openFile (Except.ok cexDoc1) initState).2 = none ∧
    saveFile (openFile (Except.ok cexDoc1) initState).1 ≠ cexDoc1 := by
  constructor
  · rfl
  · decide

/-- Claim C1 (amended): for a document whose block ids and cluster ids are
each free of duplicates, whose every cluster has a nonempty member list fully
resolving against the document's blocks, and whose every connection resolves
both endpoints with valid anchor names, loading and then saving reproduces
the document exactly — ids, titles, contents, positions, sizes, colors, lock
flags, cluster membership and connection endpoints included. -/
theorem c1_roundtrip_amended (doc : Document) (s : GraphEditor)
    (h : docWellFormed doc) :
    (openFile (Except.ok doc) s).2 = none ∧
    saveFile (openFile (Except.ok doc) s).1 = doc := by
  obtain ⟨hnodupB, hnodupC, hclus, hconn⟩ := h
  have hb1blocks : (loadBlocksAux doc.blocks (newFile s)).blocks =
      doc.blocks.map (fun bd => (bd.id, blockOfData bd)) := by
    rw [loadBlocksAux_blocks_spec doc.blocks (newFile s)
        (fun bd _ => by simp [newFile, keysOf]) hnodupB]
    simp [newFile]
  have hkeysb1 : keysOf (loadBlocksAux doc.blocks (newFile s)).blocks =
      doc.blocks.map BlockData.id := by
    rw [hb1blocks]
    simp [keysOf, List.map_map]
  have hlookupb1 : ∀ bid ∈ docBlockIds doc,
      (lookupKey bid (loadBlocksAux doc.blocks (newFile s)).blocks).isSome = true := by
    intro bid hm
    rw [lookupKey_isSome_iff_mem_keysOf, hkeysb1]
    exact hm
  have hparb1 : ∀ p ∈ (loadBlocksAux doc.blocks (newFile s)).blocks, p.2.parent = none := by
    intro p hp
    rw [hb1blocks] at hp
    obtain ⟨bd, _, hbd⟩ := List.mem_map.mp hp
    have hp2 : p.2 = blockOfData bd := by
      rw [← hbd]
    rw [hp2]
    exact blockOfData_parent bd
  have hb1clusters : (loadBlocksAux doc.blocks (newFile s)).clusters = [] :=
    (loadBlocksAux_frame doc.blocks (newFile s)).1
  have hb1conns : (loadBlocksAux doc.blocks (newFile s)).connections = [] :=
    (loadBlocksAux_frame doc.blocks (newFile s)).2.1
  have hc1clusters : (loadPhase12 doc s).clusters =
      doc.clusters.map (fun cd =>
        (cd.id, clusterOfData (loadBlocksAux doc.blocks (newFile s)) cd)) := by
    rw [loadPhase12,
        loadClustersAux_spec doc.clusters (loadBlocksAux doc.blocks (newFile s))
          (fun cd _ => by rw [hb1clusters]; simp [keysOf]) hnodupC
          (fun cd hm => ⟨(hclus cd hm).1,
            fun bid hb => hlookupb1 bid ((hclus cd hm).2 bid hb)⟩)
          hparb1,
        hb1clusters]
    simp
  have hc1blocks : (loadPhase12 doc s).blocks =
      (loadBlocksAux doc.blocks (newFile s)).blocks :=
    (loadClustersAux_frame doc.clusters (loadBlocksAux doc.blocks (newFile s))).1
  have hc1conns : (loadPhase12 doc s).connections = [] :=
    ((loadClustersAux_frame doc.clusters (loadBlocksAux doc.blocks (newFile s))).2.1).trans
      hb1conns
  have hresolve : ∀ cd ∈ doc.connections,
      resolvesIn (loadPhase12 doc s).blocks cd = true := by
    intro cd hm
    obtain ⟨hs, he, _, _⟩ := hconn cd hm
    rw [resolvesIn, hc1blocks, hlookupb1 _ hs, hlookupb1 _ he]
    rfl
  have hopen : openFile (Except.ok doc) s =
      ({ loadPhase12 doc s with connections :=
          (loadPhase12 doc s).connections ++ doc.connections.map connOfData },
       none) := by
    show loadDocument doc s = _
    have hld : loadDocument doc s = loadConnsAux doc.connections (loadPhase12 doc s) := rfl
    rw [hld, loadConnsAux_spec doc.connections (loadPhase12 doc s)
        (fun cd hm _ => (hconn cd hm).2.2.1),
        filterMap_if_all _ _ _ hresolve]
  constructor
  · rw [hopen]
  · rw [hopen]
    show saveFile ({ loadPhase12 doc s with connections :=
        (loadPhase12 doc s).connections ++ doc.connections.map connOfData }) = doc
    rw [saveFile]
    have hBlocks : ∀ (t : GraphEditor),
        t.blocks = doc.blocks.map (fun bd => (bd.id, blockOfData bd)) →
        t.blocks.map (saveBlockEntry t) = doc.blocks := by
      intro t ht
      rw [ht, List.map_map]
      have hid : ∀ bd ∈ doc.blocks,
          (saveBlockEntry t ∘ (fun bd => (bd.id, blockOfData bd))) bd = bd :=
        fun bd _ => rfl
      rw [List.map_congr_left hid]
      exact List.map_id doc.blocks
    have hClusters :
        (loadPhase12 doc s).clusters.map saveClusterEntry = doc.clusters := by
      rw [hc1clusters, List.map_map]
      have hid : ∀ cd ∈ doc.clusters,
          (saveClusterEntry ∘
            (fun cd => (cd.id,
              clusterOfData (loadBlocksAux doc.blocks (newFile s)) cd))) cd = cd := by
        intro cd hm
        have he1 : (saveClusterEntry ∘
            (fun cd => (cd.id,
              clusterOfData (loadBlocksAux doc.blocks (newFile s)) cd))) cd =
            ({ id := cd.id,
               title := cd.title,
               color := cd.color,
               block_ids := resolvedIds (loadBlocksAux doc.blocks (newFile s)) cd,
               locked := cd.locked } : ClusterData) := rfl
        rw [he1,
            resolvedIds_of_all_resolving (loadBlocksAux doc.blocks (newFile s)) cd
              (fun bid hb => hlookupb1 bid ((hclus cd hm).2 bid hb))]
      rw [List.map_congr_left hid]
      exact List.map_id doc.clusters
    have hConns :
        ((loadPhase12 doc s).connections ++ doc.connections.map connOfData).filterMap
          saveConnEntry = doc.connections := by
      rw [hc1conns, List.nil_append, List.filterMap_map]
      apply filterMap_all_some
      intro cn hm
      obtain ⟨_, _, hsi, hei⟩ := hconn cn hm
      obtain ⟨so, hso⟩ := Option.isSome_iff_exists.mp hsi
      obtain ⟨eo, heo⟩ := Option.isSome_iff_exists.mp hei
      show saveConnEntry (connOfData cn) = some cn
      rw [saveConnEntry, connOfData, hso, heo]
      simp [orientToString_anchorOfString _ _ hso, orientToString_anchorOfString _ _ heo]
    rw [hBlocks _ (hb1blocks ▸ hc1blocks), hClusters, hConns]

/-- Claim C1 (witness): the amended round-trip at a concrete document with two
blocks, one cluster and one connection, loaded into the initial state. -/
theorem c1_roundtrip_witness :
    (openFile (Except.ok witDoc1) initState).2 = none ∧
    saveFile (openFile (Except.ok witDoc1) initState).1 = witDoc1 :=
  c1_roundtrip_amended witDoc1 initState (by decide)

/- ## Claim C2: treatment of bad connection entries on load -/

/-- Claim C2 (counterexample): the claim as stated is false.  In cexDoc2 the
connection's block ids both resolve but its start anchor name is not one of
the four orientations; instead of silently dropping the entry, the load
raises (create_line_item dereferences the missing anchor). -/
theorem c2_silent_drop_counterexample :
    (openFile (Except.ok cexDoc2) initState).2 = some ("AttributeError") := by
  decide

/-- Claim C2 (amended): connection entries whose start or end block id does
not resolve are silently dropped, and blocks and clusters still load as
usual.  A resolving entry with a valid start anchor name is loaded even when
its end anchor name is invalid — it is kept with no end anchor rather than
dropped (connOfData maps an invalid end name to end_anchor = none).  Only a
resolving entry with an invalid start anchor name makes the load raise;
when no such entry exists the load succeeds and keeps exactly the resolving
entries. -/
theorem c2_connection_load_amended (doc : Document) (s : GraphEditor)
    (hsafe : ∀ cd ∈ doc.connections,
      resolvesIn (loadPhase12 doc s).blocks cd = true →
      (anchorOfString cd.start_anchor).isSome = true) :
    (openFile (Except.ok doc) s).2 = none ∧
    (openFile (Except.ok doc) s).1.blocks = (loadPhase12 doc s).blocks ∧
    (openFile (Except.ok doc) s).1.clusters = (loadPhase12 doc s).clusters ∧
    (openFile (Except.ok doc) s).1.connections =
      doc.connections.filterMap (fun cd =>
        if resolvesIn (loadPhase12 doc s).blocks cd then some (connOfData cd) else none) := by
  have hopen : openFile (Except.ok doc) s =
      ({ loadPhase12 doc s with connections :=
          (loadPhase12 doc s).connections ++
            doc.connections.filterMap (fun cd =>
              if resolvesIn (loadPhase12 doc s).blocks cd then some (connOfData cd)
              else none) },
       none) := by
    show loadDocument doc s = _
    have hld : loadDocument doc s = loadConnsAux doc.connections (loadPhase12 doc s) := rfl
    rw [hld, loadConnsAux_spec doc.connections (loadPhase12 doc s) hsafe]
  have hphp : (loadPhase12 doc s).connections = [] :=
    ((loadClustersAux_frame doc.clusters (loadBlocksAux doc.blocks (newFile s))).2.1).trans
      (loadBlocksAux_frame doc.blocks (newFile s)).2.1
  refine ⟨by rw [hopen], by rw [hopen], by rw [hopen], ?_⟩
  rw [hopen]
  show (loadPhase12 doc s).connections ++
      doc.connections.filterMap (fun cd =>
        if resolvesIn (loadPhase12 doc s).blocks cd then some (connOfData cd) else none) = _
  rw [hphp, List.nil_append]

/-- Claim C2 (witness): the amended statement at a concrete document with one
unresolvable connection, one fully valid one, and one with an invalid end
anchor name. -/
theorem c2_connection_load_witness :
    (openFile (Except.ok witDoc2) initState).2 = none ∧
    (openFile (Except.ok witDoc2) initState).1.blocks =
      (loadPhase12 witDoc2 initState).blocks ∧
    (openFile (Except.ok witDoc2) initState).1.clusters =
      (loadPhase12 witDoc2 initState).clusters ∧
    (openFile (Except.ok witDoc2) initState).1.connections =
      witDoc2.connections.filterMap (fun cd =>
        if resolvesIn (loadPhase12 witDoc2 initState).blocks cd then some (connOfData cd)
        else none) :=
  c2_connection_load_amended witDoc2 initState (by decide)

/- ## Claim C3: what a failed load leaves behind -/

theorem loadBlock_counter (s : GraphEditor) (bd : BlockData) :
    (loadBlock s bd).block_id_counter =
      if bd.id ≥ s.block_id_counter then bd.id + 1 else s.block_id_counter := by
  simp only [loadBlock]
  split <;> rfl

theorem coreEq_loadBlock {s t : GraphEditor} (h : coreEq s t) (bd : BlockData) :
    coreEq (loadBlock s bd) (loadBlock t bd) := by
  obtain ⟨h1, h2, h3, h4, h5, h6, h7⟩ := h
  refine ⟨?_, ?_, ?_, ?_, ?_, ?_, ?_⟩
  · rw [loadBlock_counter, loadBlock_counter, h1]
  · rw [(loadBlock_frame s bd).2.2.1, (loadBlock_frame t bd).2.2.1, h2]
  · rw [loadBlock_blocks, loadBlock_blocks, h3]
  · rw [(loadBlock_frame s bd).1, (loadBlock_frame t bd).1, h4]
  · rw [(loadBlock_frame s bd).2.1, (loadBlock_frame t bd).2.1, h5]
  · rw [(loadBlock_frame s bd).2.2.2.1, (loadBlock_frame t bd).2.2.2.1, h6]
  · rw [(loadBlock_frame s bd).2.2.2.2, (loadBlock_frame t bd).2.2.2.2, h7]

theorem coreEq_loadBlocksAux (l : List BlockData) {s t : GraphEditor} (h : coreEq s t) :
    coreEq (loadBlocksAux l s) (loadBlocksAux l t) := by
  induction l generalizing s t with
  | nil => exact h
  | cons bd rest ih =>
    rw [loadBlocksAux, loadBlocksAux]
    exact ih (coreEq_loadBlock h bd)

theorem clusterOfData_core_congr (s t : GraphEditor) (cd : ClusterData)
    (hb : t.blocks = s.blocks) (hcl : t.clusters = s.clusters) :
    clusterOfData t cd = clusterOfData s cd := by
  rw [clusterOfData, clusterOfData, resolvedBlocks_congr s t cd hb,
      resolvedIds_congr s t cd hb,
      computeBoundingRect_ext s t (resolvedBlocks s cd)
        (fun b _ => sceneBoundingRect_clusters_congr s t b hcl)]

theorem coreEq_loadCluster {s t : GraphEditor} (h : coreEq s t) (cd : ClusterData) :
    coreEq (loadCluster s cd) (loadCluster t cd) := by
  obtain ⟨h1, h2, h3, h4, h5, h6, h7⟩ := h
  have hrb : resolvedBlocks t cd = resolvedBlocks s cd :=
    resolvedBlocks_congr s t cd h3.symm
  by_cases he : (resolvedBlocks s cd).isEmpty = true
  · rw [loadCluster, loadCluster, if_pos he, if_pos (by rw [hrb]; exact he)]
    exact ⟨h1, h2, h3, h4, h5, h6, h7⟩
  · rw [loadCluster, loadCluster, if_neg he, if_neg (by rw [hrb]; exact he)]
    refine ⟨h1, h2, h3, ?_, h5, h6, h7⟩
    show dictInsert s.clusters cd.id (clusterOfData s cd) =
      dictInsert t.clusters cd.id (clusterOfData t cd)
    rw [h4, clusterOfData_core_congr s t cd h3.symm h4.symm]

theorem coreEq_loadClustersAux (l : List ClusterData) {s t : GraphEditor} (h : coreEq s t) :
    coreEq (loadClustersAux l s) (loadClustersAux l t) := by
  induction l generalizing s t with
  | nil => exact h
  | cons cd rest ih =>
    rw [loadClustersAux, loadClustersAux]
    exact ih (coreEq_loadCluster h cd)

theorem coreEq_loadConnsAux (l : List ConnData) {s t : GraphEditor} (h : coreEq s t) :
    coreEq (loadConnsAux l s).1 (loadConnsAux l t).1 ∧
      (loadConnsAux l s).2 = (loadConnsAux l t).2 := by
  induction l generalizing s t with
  | nil => exact ⟨h, rfl⟩
  | cons cd rest ih =>
    obtain ⟨h1, h2, h3, h4, h5, h6, h7⟩ := h
    rw [loadConnsAux, loadConnsAux]
    by_cases hc : ((lookupKey cd.start_block_id s.blocks).isSome
        && (lookupKey cd.end_block_id s.blocks).isSome) = true
    · rw [if_pos hc, if_pos (by rw [← h3]; exact hc)]
      cases hso : anchorOfString cd.start_anchor with
      | none => exact ⟨⟨h1, h2, h3, h4, h5, h6, h7⟩, rfl⟩
      | some so =>
        apply ih
        exact ⟨h1, h2, h3, h4, by rw [h5], h6, h7⟩
    · rw [if_neg hc, if_neg (by rw [← h3]; exact hc)]
      exact ih ⟨h1, h2, h3, h4, h5, h6, h7⟩

/-- Claim C3 (counterexample): the claim as stated is false.  cexDoc3 parses
but fails partway through reconstruction (its connection entry resolves block
7 twice with an invalid start anchor name).  The load fails, yet the
pre-existing block registry of cexS3 has already been replaced. -/
theorem c3_all_or_nothing_counterexample :
    (openFile (Except.ok cexDoc3) cexS3).2 ≠ none ∧
    (openFile (Except.ok cexDoc3) cexS3).1.blocks ≠ cexS3.blocks := by
  decide

/-- Claim C3 (amended): a failure to read or parse the file leaves the
in-memory model untouched (the exception fires before newFile); but once the
document parses, the model is cleared before reconstruction, so the state a
failed load leaves behind is a function of the document alone — the
pre-existing blocks, clusters and connections are discarded either way. -/
theorem c3_all_or_nothing_amended :
    (∀ (e : String) (s : GraphEditor), openFile (Except.error e) s = (s, some e)) ∧
    (∀ (doc : Document) (s s2 : GraphEditor),
      (openFile (Except.ok doc) s).1.blocks = (openFile (Except.ok doc) s2).1.blocks ∧
      (openFile (Except.ok doc) s).1.clusters = (openFile (Except.ok doc) s2).1.clusters ∧
      (openFile (Except.ok doc) s).1.connections =
        (openFile (Except.ok doc) s2).1.connections ∧
      (openFile (Except.ok doc) s).2 = (openFile (Except.ok doc) s2).2) := by
  constructor
  · intro e s
    rfl
  · intro doc s s2
    have hnf : coreEq (newFile s) (newFile s2) := ⟨rfl, rfl, rfl, rfl, rfl, rfl, rfl⟩
    have hfin := coreEq_loadConnsAux doc.connections
      (coreEq_loadClustersAux doc.clusters (coreEq_loadBlocksAux doc.blocks hnf))
    exact ⟨hfin.1.2.2.1, hfin.1.2.2.2.1, hfin.1.2.2.2.2.1, hfin.2⟩

/- ## Claims C4 and C5: reparenting and scene positions -/

theorem addPt_zero (x : ℚ × ℚ) : addPt (0, 0) x = x := by
  simp [addPt]

theorem groupSelectedBlocks_lookup (sel : List SelItem) (s : GraphEditor)
    (h2 : ¬ (selectedBlocks sel s).length < 2) (j : Int) :
    lookupKey j (groupSelectedBlocks sel s).blocks =
      if j ∈ (selectedBlocks sel s).map Prod.fst
      then (lookupKey j s.blocks).map
        (fun b => { b with parent := some s.cluster_id_counter })
      else lookupKey j s.blocks := by
  simp only [groupSelectedBlocks]
  rw [if_neg h2]
  have hfold :
      (selectedBlocks sel s).foldl
        (fun bs p => mapValue bs p.1
          (fun b => { b with parent := some s.cluster_id_counter })) s.blocks =
      ((selectedBlocks sel s).map Prod.fst).foldl
        (fun bs k => mapValue bs k
          (fun b => { b with parent := some s.cluster_id_counter })) s.blocks := by
    rw [List.foldl_map]
  show lookupKey j ((selectedBlocks sel s).foldl
      (fun bs p => mapValue bs p.1
        (fun b => { b with parent := some s.cluster_id_counter })) s.blocks) = _
  rw [hfold, lookupKey_foldl_mapValue ((selectedBlocks sel s).map Prod.fst) s.blocks j
      (fun b => { b with parent := some s.cluster_id_counter }) (fun a => rfl)]

theorem groupSelectedBlocks_clusters (sel : List SelItem) (s : GraphEditor)
    (h2 : ¬ (selectedBlocks sel s).length < 2) :
    (groupSelectedBlocks sel s).clusters =
      dictInsert s.clusters s.cluster_id_counter
        { title := "Кластер " ++ toString s.cluster_id_counter, color := "#ffeeaa",
          locked := false, pos := (0, 0),
          rect := computeBoundingRect s ((selectedBlocks sel s).map Prod.snd),
          blocks := (selectedBlocks sel s).map Prod.fst } := by
  simp only [groupSelectedBlocks]
  rw [if_neg h2]

theorem attach_foldl_fst (cid : Int) (rect : RectQ) :
    ∀ (l : List (Int × GraphBlock)) (init : List (Int × GraphBlock)) (m : List Int),
    (l.foldl (attachStep cid rect) (init, m)).1 =
      init ++ l.map (fun p =>
        if p.2.parent.isNone && rectContains rect p.2.pos
        then (p.1, { p.2 with parent := some cid }) else p) := by
  intro l
  induction l with
  | nil =>
    intro init m
    simp
  | cons p rest ih =>
    intro init m
    rw [List.foldl_cons]
    by_cases hc : (p.2.parent.isNone && rectContains rect p.2.pos) = true
    · have hstep : attachStep cid rect (init, m) p =
          (init ++ [(p.1, { p.2 with parent := some cid })],
           if p.1 ∈ m then m else m ++ [p.1]) := by
        rw [attachStep, if_pos hc]
      rw [hstep, ih, List.map_cons,
          show ((if (p.2.parent.isNone && rectContains rect p.2.pos) = true
              then (p.1, { p.2 with parent := some cid }) else p) : Int × GraphBlock) =
            (p.1, { p.2 with parent := some cid }) from if_pos hc,
          ← List.append_cons]
    · have hstep : attachStep cid rect (init, m) p = (init ++ [p], m) := by
        rw [attachStep, if_neg hc]
      rw [hstep, ih, List.map_cons,
          show ((if (p.2.parent.isNone && rectContains rect p.2.pos) = true
              then (p.1, { p.2 with parent := some cid }) else p) : Int × GraphBlock) = p
            from if_neg hc,
          ← List.append_cons]

theorem attachClusterBlocks_blocks (s : GraphEditor) (cid : Int) (c : GraphCluster)
    (h1 : s.currentCluster = some cid) (h2 : lookupKey cid s.clusters = some c) :
    (attachClusterBlocks s).blocks = s.blocks.map (fun p =>
      if p.2.parent.isNone && rectContains (clusterSceneRect c) p.2.pos
      then (p.1, { p.2 with parent := some cid }) else p) := by
  simp only [attachClusterBlocks, h1, h2]
  rw [show ((s.blocks.foldl (attachStep cid (clusterSceneRect c)) ([], c.blocks)).1 :
      List (Int × GraphBlock)) =
    [] ++ s.blocks.map (fun p =>
      if p.2.parent.isNone && rectContains (clusterSceneRect c) p.2.pos
      then (p.1, { p.2 with parent := some cid }) else p)
    from attach_foldl_fst cid (clusterSceneRect c) s.blocks [] c.blocks]
  rw [List.nil_append]

theorem attachClusterBlocks_clusters (s : GraphEditor) (cid : Int) (c : GraphCluster)
    (h1 : s.currentCluster = some cid) (h2 : lookupKey cid s.clusters = some c) :
    (attachClusterBlocks s).clusters =
      mapValue s.clusters cid (fun c2 => { c2 with blocks :=
        (s.blocks.foldl (attachStep cid (clusterSceneRect c)) ([], c.blocks)).2 }) := by
  simp only [attachClusterBlocks, h1, h2]

theorem lookupKey_map_keyfix (g : (Int × GraphBlock) → (Int × GraphBlock))
    (hg : ∀ p, (g p).1 = p.1) (j : Int) (l : List (Int × GraphBlock)) :
    lookupKey j (l.map g) = (lookupKey j l).map (fun v => (g (j, v)).2) := by
  induction l with
  | nil => simp [lookupKey]
  | cons p rest ih =>
    by_cases hp : p.1 = j
    · have hgp : (g p).1 = j := by rw [hg p, hp]
      have hpe : p = (j, p.2) := by
        rw [← hp]
      rw [List.map_cons, lookupKey, if_pos hgp, lookupKey, if_pos hp]
      simp only [Option.map_some']
      rw [← hpe]
    · have hgp : ¬ (g p).1 = j := by rw [hg p]; exact hp
      rw [List.map_cons, lookupKey, if_neg hgp, lookupKey, if_neg hp, ih]

/-- Claim C4 (counterexample): the claim as stated is false.  In cexS4 the
cluster sits at (50, 0); attaching the unparented block at scene position
(60, 20) reparents it keeping its local position, so its scene position jumps
to (110, 20). -/
theorem c4_reparent_counterexample :
    scenePosOfBlockId cexS4 1 = some (60, 20) ∧
    scenePosOfBlockId (attachClusterBlocks cexS4) 1 = some (110, 20) ∧
    scenePosOfBlockId (attachClusterBlocks cexS4) 1 ≠ scenePosOfBlockId cexS4 1 := by
  refine ⟨by with_unfolding_all decide, by with_unfolding_all decide,
          by with_unfolding_all decide⟩

/-- Claim C4 (amended): reparenting keeps the block's stored local position
(as Qt's setParentItem does), so the scene position is preserved exactly when
the target cluster sits at the origin.  Grouping always creates its cluster at
the origin, so grouping top-level blocks preserves their scene positions;
attaching an unparented block to a cluster positioned at p moves the block's
scene position from its old position q to addPt p q — preserved only when
p = (0, 0). -/
theorem c4_reparent_amended :
    (∀ (s : GraphEditor) (sel : List SelItem),
      2 ≤ (selectedBlocks sel s).length →
      ∀ p ∈ selectedBlocks sel s, p.2.parent = none →
      scenePosOfBlockId (groupSelectedBlocks sel s) p.1 =
        some (scenePosOfBlock s p.2)) ∧
    (∀ (s : GraphEditor) (cid : Int) (c : GraphCluster) (bid : Int) (b : GraphBlock),
      s.currentCluster = some cid →
      lookupKey cid s.clusters = some c →
      lookupKey bid s.blocks = some b →
      b.parent = none →
      rectContains (clusterSceneRect c) b.pos = true →
      scenePosOfBlockId (attachClusterBlocks s) bid = some (addPt c.pos b.pos) ∧
      scenePosOfBlock s b = b.pos) := by
  constructor
  · intro s sel h2len p hp hpar
    have h2 : ¬ (selectedBlocks sel s).length < 2 := not_lt.mpr h2len
    rw [scenePosOfBlockId, groupSelectedBlocks_lookup sel s h2 p.1,
        if_pos (List.mem_map_of_mem Prod.fst hp), mem_selectedBlocks sel s p hp]
    have hsp : scenePosOfBlock (groupSelectedBlocks sel s)
        { p.2 with parent := some s.cluster_id_counter } =
        (match lookupKey s.cluster_id_counter (groupSelectedBlocks sel s).clusters with
         | some c2 => addPt c2.pos p.2.pos
         | none => p.2.pos) := rfl
    simp only [Option.map_some']
    rw [hsp, groupSelectedBlocks_clusters sel s h2, lookupKey_dictInsert_self,
        scenePosOfBlock_of_parent_none s p.2 hpar]
    show some (addPt (0, 0) p.2.pos) = some p.2.pos
    rw [addPt_zero]
  · intro s cid c bid b h1 h2 h3 hpar hin
    constructor
    · rw [scenePosOfBlockId, attachClusterBlocks_blocks s cid c h1 h2,
          lookupKey_map_keyfix _ (fun p => by
            by_cases hc : (p.2.parent.isNone && rectContains (clusterSceneRect c) p.2.pos) = true
            · rw [if_pos hc]
            · rw [if_neg hc]) bid, h3]
      simp only [Option.map_some']
      have hcb2 : (b.parent.isNone && rectContains (clusterSceneRect c) b.pos) = true := by
        rw [hpar, hin]
        rfl
      rw [if_pos hcb2]
      show some (scenePosOfBlock (attachClusterBlocks s)
        { b with parent := some cid }) = some (addPt c.pos b.pos)
      have hsp : scenePosOfBlock (attachClusterBlocks s) { b with parent := some cid } =
          (match lookupKey cid (attachClusterBlocks s).clusters with
           | some c2 => addPt c2.pos b.pos
           | none => b.pos) := rfl
      rw [hsp, attachClusterBlocks_clusters s cid c h1 h2, lookupKey_mapValue, if_pos rfl, h2]
      rfl
    · rw [scenePosOfBlock_of_parent_none s b hpar]

/-- Claim C4 (witness): the amended statement at concrete states — grouping
two top-level blocks of witS4a preserves the first selected block's scene
position, and attaching the unparented block 1 of witS4b to the selected
cluster (still at the origin) lands it at addPt of the cluster's position and
its own. -/
theorem c4_reparent_witness :
    scenePosOfBlockId
        (groupSelectedBlocks [SelItem.block 1, SelItem.block 2] witS4a)
        ((selectedBlocks [SelItem.block 1, SelItem.block 2] witS4a).getD 0
          (0, defaultGraphBlock)).1 =
      some (scenePosOfBlock witS4a
        ((selectedBlocks [SelItem.block 1, SelItem.block 2] witS4a).getD 0
          (0, defaultGraphBlock)).2) ∧
    (scenePosOfBlockId (attachClusterBlocks witS4b) 1 =
      some (addPt ((lookupKey 1 witS4b.clusters).getD defaultGraphCluster).pos
        ((lookupKey 1 witS4b.blocks).getD defaultGraphBlock).pos) ∧
     scenePosOfBlock witS4b ((lookupKey 1 witS4b.blocks).getD defaultGraphBlock) =
      ((lookupKey 1 witS4b.blocks).getD defaultGraphBlock).pos) :=
  ⟨c4_reparent_amended.1 witS4a [SelItem.block 1, SelItem.block 2]
    (by with_unfolding_all decide)
    ((selectedBlocks [SelItem.block 1, SelItem.block 2] witS4a).getD 0
      (0, defaultGraphBlock))
    (by with_unfolding_all decide) (by with_unfolding_all decide),
   c4_reparent_amended.2 witS4b 1
    ((lookupKey 1 witS4b.clusters).getD defaultGraphCluster) 1
    ((lookupKey 1 witS4b.blocks).getD defaultGraphBlock)
    (by with_unfolding_all decide) (by with_unfolding_all decide)
    (by with_unfolding_all decide) (by with_unfolding_all decide)
    (by with_unfolding_all decide)⟩

theorem detachClusterBlocks_lookup_block (s : GraphEditor) (cid : Int) (c : GraphCluster)
    (h1 : s.currentCluster = some cid) (h2 : lookupKey cid s.clusters = some c) (j : Int) :
    lookupKey j (detachClusterBlocks s).blocks =
      if j ∈ c.blocks
      then (lookupKey j s.blocks).map (fun b => { b with parent := none })
      else lookupKey j s.blocks := by
  simp only [detachClusterBlocks, h1, h2]
  rw [lookupKey_foldl_mapValue c.blocks s.blocks j
      (fun b => { b with parent := none }) (fun a => rfl)]

theorem detachClusterBlocks_cluster (s : GraphEditor) (cid : Int) (c : GraphCluster)
    (h1 : s.currentCluster = some cid) (h2 : lookupKey cid s.clusters = some c) :
    lookupKey cid (detachClusterBlocks s).clusters =
      some { c with blocks := [], rect := { x := 0, y := 0, w := 0, h := 0 } } := by
  simp only [detachClusterBlocks, h1, h2]
  rw [lookupKey_mapValue, if_pos rfl, h2]
  rfl

/-- Claim C5 (counterexample): the claim as stated is false.  In cexS5 the
cluster was dragged to (50, 0) after grouping; detaching leaves block 1 at its
cluster-local position (0, 0) instead of its pre-detach scene position
(50, 0). -/
theorem c5_detach_counterexample :
    scenePosOfBlockId cexS5 1 = some (50, 0) ∧
    scenePosOfBlockId (detachClusterBlocks cexS5) 1 = some (0, 0) ∧
    scenePosOfBlockId (detachClusterBlocks cexS5) 1 ≠ scenePosOfBlockId cexS5 1 := by
  refine ⟨by with_unfolding_all decide, by with_unfolding_all decide,
          by with_unfolding_all decide⟩

/-- Claim C5 (amended): detaching empties the current cluster's member list
and sets its rect to the empty QRectF, and reparents every member to the
scene keeping its stored local position: a member parented to the cluster
moves from scene position addPt c.pos b.pos to b.pos, so its scene position
is preserved exactly when the cluster sits at the origin. -/
theorem c5_detach_amended (s : GraphEditor) (cid : Int) (c : GraphCluster)
    (h1 : s.currentCluster = some cid) (h2 : lookupKey cid s.clusters = some c) :
    lookupKey cid (detachClusterBlocks s).clusters =
      some { c with blocks := [], rect := { x := 0, y := 0, w := 0, h := 0 } } ∧
    ∀ bid ∈ c.blocks,
      lookupKey bid (detachClusterBlocks s).blocks =
        (lookupKey bid s.blocks).map (fun b => { b with parent := none }) ∧
      ∀ b : GraphBlock, lookupKey bid s.blocks = some b →
        scenePosOfBlock (detachClusterBlocks s) { b with parent := none } = b.pos ∧
        (b.parent = some cid → scenePosOfBlock s b = addPt c.pos b.pos) := by
  refine ⟨detachClusterBlocks_cluster s cid c h1 h2, ?_⟩
  intro bid hbid
  refine ⟨?_, ?_⟩
  · rw [detachClusterBlocks_lookup_block s cid c h1 h2 bid, if_pos hbid]
  · intro b _
    refine ⟨?_, ?_⟩
    · exact scenePosOfBlock_of_parent_none (detachClusterBlocks s) _ rfl
    · intro hbp
      have hsp : scenePosOfBlock s b =
          (match lookupKey cid s.clusters with
           | some c2 => addPt c2.pos b.pos
           | none => b.pos) := by
        rw [scenePosOfBlock, hbp]
      rw [hsp, h2]

/-- Claim C5 (witness): the amended statement at the concrete state witS5,
whose selected cluster 1 holds blocks 1 and 2 and still sits at the origin. -/
theorem c5_detach_witness :
    lookupKey 1 (detachClusterBlocks witS5).clusters =
      some { (lookupKey 1 witS5.clusters).getD defaultGraphCluster with
             blocks := [], rect := { x := 0, y := 0, w := 0, h := 0 } } ∧
    ∀ bid ∈ ((lookupKey 1 witS5.clusters).getD defaultGraphCluster).blocks,
      lookupKey bid (detachClusterBlocks witS5).blocks =
        (lookupKey bid witS5.blocks).map (fun b => { b with parent := none }) ∧
      ∀ b : GraphBlock, lookupKey bid witS5.blocks = some b →
        scenePosOfBlock (detachClusterBlocks witS5) { b with parent := none } = b.pos ∧
        (b.parent = some 1 → scenePosOfBlock witS5 b =
          addPt ((lookupKey 1 witS5.clusters).getD defaultGraphCluster).pos b.pos) :=
  c5_detach_amended witS5 1 ((lookupKey 1 witS5.clusters).getD defaultGraphCluster)
    (by with_unfolding_all decide) (by with_unfolding_all decide)

/- ## Claim C6: id namespaces and counters -/

theorem keysOf_dictInsert {α : Type} (l : List (Int × α)) (k j : Int) (v : α)
    (h : j ∈ keysOf (dictInsert l k v)) : j ∈ keysOf l ∨ j = k := by
  rw [keysOf] at h
  obtain ⟨p, hp, hpj⟩ := List.mem_map.mp h
  rcases mem_dictInsert l k v p hp with hm | hm
  · exact Or.inl (hpj ▸ List.mem_map_of_mem Prod.fst hm)
  · right
    rw [← hpj, hm]

theorem loadBlock_counter_mono (s : GraphEditor) (bd : BlockData) :
    s.block_id_counter ≤ (loadBlock s bd).block_id_counter := by
  rw [loadBlock_counter]
  split
  · omega
  · exact le_refl _

theorem loadBlock_counter_bound (s : GraphEditor) (bd : BlockData)
    (h : ∀ p ∈ s.blocks, p.1 < s.block_id_counter) :
    ∀ p ∈ (loadBlock s bd).blocks, p.1 < (loadBlock s bd).block_id_counter := by
  intro p hp
  rw [loadBlock_blocks] at hp
  rw [loadBlock_counter]
  rcases mem_dictInsert s.blocks bd.id (blockOfData bd) p hp with hm | hm
  · have := h p hm
    split <;> omega
  · have hpk : p.1 = bd.id := by rw [hm]
    rw [hpk]
    split <;> omega

theorem loadBlocksAux_counter_bound (l : List BlockData) (s : GraphEditor)
    (h : ∀ p ∈ s.blocks, p.1 < s.block_id_counter) :
    ∀ p ∈ (loadBlocksAux l s).blocks, p.1 < (loadBlocksAux l s).block_id_counter := by
  induction l generalizing s with
  | nil => exact h
  | cons bd rest ih =>
    rw [loadBlocksAux]
    exact ih (loadBlock s bd) (loadBlock_counter_bound s bd h)

theorem addBlock_blocks (x y : ℚ) (s : GraphEditor) :
    (addBlock x y s).blocks =
      dictInsert s.blocks s.block_id_counter
        { mkGraphBlock { x := 0, y := 0, w := 150, h := 80 } ("Новий блок") with
          block_id := s.block_id_counter, pos := (x, y) } := by
  simp only [addBlock, setCurrentBlockFn]
  split <;> rfl

/-- Claim C6 (counterexample): the claim as stated is false.  Loading cexDoc6
registers a cluster under id 1 but leaves cluster_id_counter at 1, so the
next grouping creates a cluster with the same id 1 and silently overwrites
the loaded cluster. -/
theorem c6_id_counters_counterexample :
    cexS6.cluster_id_counter = 1 ∧
    (lookupKey 1 cexS6.clusters).map GraphCluster.title = some ("loaded") ∧
    (groupSelectedBlocks [SelItem.block 1, SelItem.block 2] cexS6).clusters.length = 1 ∧
    (lookupKey 1 (groupSelectedBlocks [SelItem.block 1, SelItem.block 2] cexS6).clusters).map
      GraphCluster.title = some ("Кластер 1") := by
  refine ⟨by decide, by decide, by with_unfolding_all decide, by with_unfolding_all decide⟩

/-- Claim C6 (amended): loading bumps the block id counter past every loaded
block id, so the registry satisfies key < counter and a subsequently created
block gets a fresh id appended to the registry; the cluster id counter,
however, is not bumped by load — it stays at its reset value 1 regardless of
the loaded cluster ids — so a subsequently created cluster can collide with
and overwrite a loaded cluster. -/
theorem c6_id_counters_amended (doc : Document) (s : GraphEditor)
    (hok : (openFile (Except.ok doc) s).2 = none) :
    (∀ p ∈ (openFile (Except.ok doc) s).1.blocks,
      p.1 < (openFile (Except.ok doc) s).1.block_id_counter) ∧
    (openFile (Except.ok doc) s).1.cluster_id_counter = 1 ∧
    (∀ x y : ℚ,
      (addBlock x y (openFile (Except.ok doc) s).1).blocks =
        (openFile (Except.ok doc) s).1.blocks ++
          [((openFile (Except.ok doc) s).1.block_id_counter,
            { mkGraphBlock { x := 0, y := 0, w := 150, h := 80 } ("Новий блок") with
              block_id := (openFile (Except.ok doc) s).1.block_id_counter,
              pos := (x, y) })]) := by
  have hopen : openFile (Except.ok doc) s =
      loadConnsAux doc.connections (loadPhase12 doc s) := rfl
  have hblocks : (openFile (Except.ok doc) s).1.blocks =
      (loadBlocksAux doc.blocks (newFile s)).blocks := by
    rw [hopen, (loadConnsAux_frame doc.connections (loadPhase12 doc s)).1, loadPhase12,
        (loadClustersAux_frame doc.clusters (loadBlocksAux doc.blocks (newFile s))).1]
  have hbcnt : (openFile (Except.ok doc) s).1.block_id_counter =
      (loadBlocksAux doc.blocks (newFile s)).block_id_counter := by
    rw [hopen, (loadConnsAux_frame doc.connections (loadPhase12 doc s)).2.2.1, loadPhase12,
        (loadClustersAux_frame doc.clusters (loadBlocksAux doc.blocks (newFile s))).2.2.1]
  have hlt : ∀ p ∈ (openFile (Except.ok doc) s).1.blocks,
      p.1 < (openFile (Except.ok doc) s).1.block_id_counter := by
    intro p hp
    rw [hblocks] at hp
    rw [hbcnt]
    exact loadBlocksAux_counter_bound doc.blocks (newFile s)
      (fun p2 hp2 => by simp [newFile] at hp2) p hp
  refine ⟨hlt, ?_, ?_⟩
  · rw [hopen, (loadConnsAux_frame doc.connections (loadPhase12 doc s)).2.2.2.1, loadPhase12,
        (loadClustersAux_frame doc.clusters (loadBlocksAux doc.blocks (newFile s))).2.2.2.1,
        (loadBlocksAux_frame doc.blocks (newFile s)).2.2.1]
    rfl
  · intro x y
    rw [addBlock_blocks]
    apply dictInsert_of_not_mem
    intro hmem
    rw [keysOf] at hmem
    obtain ⟨p, hp, hpk⟩ := List.mem_map.mp hmem
    have := hlt p hp
    omega

/-- Claim C6 (witness): the amended statement at a concrete document with a
single block of id 10 loaded into the initial state (the counter lands on
11). -/
theorem c6_id_counters_witness :
    (∀ p ∈ (openFile (Except.ok witDoc6) initState).1.blocks,
      p.1 < (openFile (Except.ok witDoc6) initState).1.block_id_counter) ∧
    (openFile (Except.ok witDoc6) initState).1.cluster_id_counter = 1 ∧
    (∀ x y : ℚ,
      (addBlock x y (openFile (Except.ok witDoc6) initState).1).blocks =
        (openFile (Except.ok witDoc6) initState).1.blocks ++
          [((openFile (Except.ok witDoc6) initState).1.block_id_counter,
            { mkGraphBlock { x := 0, y := 0, w := 150, h := 80 } ("Новий блок") with
              block_id := (openFile (Except.ok witDoc6) initState).1.block_id_counter,
              pos := (x, y) })]) :=
  c6_id_counters_amended witDoc6 initState (by decide)

/- ## Claim C7: anchors are derived geometry, at all times -/

theorem blockWF_mapValue (l : List (Int × GraphBlock)) (k : Int) (f : GraphBlock → GraphBlock)
    (hl : ∀ p ∈ l, blockWF p.2) (hf : ∀ b, blockWF b → blockWF (f b)) :
    ∀ p ∈ mapValue l k f, blockWF p.2 := by
  intro p hp
  rw [mapValue] at hp
  obtain ⟨q, hq, hpq⟩ := List.mem_map.mp hp
  by_cases hk : q.1 = k
  · rw [if_pos hk] at hpq
    rw [← hpq]
    exact hf q.2 (hl q hq)
  · rw [if_neg hk] at hpq
    rw [← hpq]
    exact hl q hq

theorem blockWF_foldl {β : Type}
    (g : List (Int × GraphBlock) → β → List (Int × GraphBlock))
    (hg : ∀ l b, (∀ p ∈ l, blockWF p.2) → ∀ p ∈ g l b, blockWF p.2) :
    ∀ (K : List β) (l : List (Int × GraphBlock)),
      (∀ p ∈ l, blockWF p.2) → ∀ p ∈ K.foldl g l, blockWF p.2 := by
  intro K
  induction K with
  | nil =>
    intro l hl
    exact hl
  | cons b K ih =>
    intro l hl
    rw [List.foldl_cons]
    exact ih (g l b) (hg l b hl)

theorem blockWF_blockOfData (bd : BlockData) : blockWF (blockOfData bd) :=
  ⟨rfl, rfl, rfl⟩

theorem blockWF_loadBlocksAux (l : List BlockData) (s : GraphEditor)
    (h : stateBlocksWF s) : stateBlocksWF (loadBlocksAux l s) := by
  induction l generalizing s with
  | nil => exact h
  | cons bd rest ih =>
    rw [loadBlocksAux]
    apply ih
    intro p hp
    rw [loadBlock_blocks] at hp
    rcases mem_dictInsert s.blocks bd.id (blockOfData bd) p hp with hm | hm
    · exact h p hm
    · rw [hm]
      exact blockWF_blockOfData bd

theorem stateBlocksWF_openFile (parsed : Except String Document) (s : GraphEditor)
    (h : stateBlocksWF s) : stateBlocksWF (openFile parsed s).1 := by
  cases parsed with
  | error e => exact h
  | ok doc =>
    intro p hp
    have hb : (openFile (Except.ok doc) s).1.blocks =
        (loadBlocksAux doc.blocks (newFile s)).blocks := by
      rw [show openFile (Except.ok doc) s =
            loadConnsAux doc.connections (loadPhase12 doc s) from rfl,
          (loadConnsAux_frame doc.connections (loadPhase12 doc s)).1, loadPhase12,
          (loadClustersAux_frame doc.clusters (loadBlocksAux doc.blocks (newFile s))).1]
    rw [hb] at hp
    exact blockWF_loadBlocksAux doc.blocks (newFile s) (fun q hq => by simp [newFile] at hq) p hp

theorem stateBlocksWF_deleteOne (s : GraphEditor) (it : SelItem)
    (h : stateBlocksWF s) : stateBlocksWF (deleteOneSelected s it) := by
  cases it with
  | block bid =>
    rw [deleteOneSelected]
    split
    · intro p hp
      exact h p (List.mem_of_mem_filter hp)
    · exact h
  | cluster cid =>
    rw [deleteOneSelected]
    cases hc : lookupKey cid s.clusters with
    | none => exact h
    | some c =>
      intro p hp
      have hp2 : p ∈ c.blocks.foldl
          (fun bs bid2 => mapValue bs bid2 (fun b => { b with parent := none }))
          s.blocks := hp
      refine blockWF_foldl
        (fun bs bid2 => mapValue bs bid2 (fun b => { b with parent := none }))
        (fun l2 b2 hl2 => ?_) c.blocks s.blocks h p hp2
      intro p2 hp3
      exact blockWF_mapValue l2 b2 (fun b => { b with parent := none }) hl2
        (fun b hb => hb) p2 hp3

theorem stateBlocksWF_deleteSelected (sel : List SelItem) (s : GraphEditor)
    (h : stateBlocksWF s) : stateBlocksWF (deleteSelected sel s) := by
  induction sel generalizing s with
  | nil => exact h
  | cons it rest ih =>
    rw [deleteSelected, List.foldl_cons]
    exact ih (deleteOneSelected s it) (stateBlocksWF_deleteOne s it h)

theorem stateBlocksWF_step (cmd : Cmd) (s : GraphEditor)
    (h : stateBlocksWF s) : stateBlocksWF (step s cmd) := by
  cases cmd with
  | addBlockCmd x y =>
    intro p hp
    rw [show (step s (Cmd.addBlockCmd x y)).blocks = (addBlock x y s).blocks from rfl,
        addBlock_blocks] at hp
    rcases mem_dictInsert _ _ _ p hp with hm | hm
    · exact h p hm
    · rw [hm]
      exact ⟨rfl, rfl, rfl⟩
  | deleteSelectedCmd sel => exact stateBlocksWF_deleteSelected sel s h
  | groupCmd sel =>
    show stateBlocksWF (groupSelectedBlocks sel s)
    rw [groupSelectedBlocks]
    split
    · exact h
    · intro p hp
      have hp2 : p ∈ (selectedBlocks sel s).foldl
          (fun bs q => mapValue bs q.1
            (fun b => { b with parent := some s.cluster_id_counter }))
          s.blocks := hp
      refine blockWF_foldl
        (fun bs q => mapValue bs q.1
          (fun b => { b with parent := some s.cluster_id_counter }))
        (fun l2 q hl2 => ?_) (selectedBlocks sel s) s.blocks h p hp2
      intro p2 hp3
      exact blockWF_mapValue l2 q.1
        (fun b => { b with parent := some s.cluster_id_counter }) hl2
        (fun b hb => hb) p2 hp3
  | detachCmd =>
    show stateBlocksWF (detachClusterBlocks s)
    cases hcur : s.currentCluster with
    | none =>
      simp only [detachClusterBlocks, hcur]
      exact h
    | some cid =>
      cases hc : lookupKey cid s.clusters with
      | none =>
        simp only [detachClusterBlocks, hcur, hc]
        exact h
      | some c =>
        simp only [detachClusterBlocks, hcur, hc]
        intro p hp
        have hp2 : p ∈ c.blocks.foldl
            (fun bs bid2 => mapValue bs bid2 (fun b => { b with parent := none }))
            s.blocks := hp
        refine blockWF_foldl
          (fun bs bid2 => mapValue bs bid2 (fun b => { b with parent := none }))
          (fun l2 b2 hl2 => ?_) c.blocks s.blocks h p hp2
        intro p2 hp3
        exact blockWF_mapValue l2 b2 (fun b => { b with parent := none }) hl2
          (fun b hb => hb) p2 hp3
  | attachCmd =>
    show stateBlocksWF (attachClusterBlocks s)
    cases hcur : s.currentCluster with
    | none =>
      simp only [attachClusterBlocks, hcur]
      exact h
    | some cid =>
      cases hc : lookupKey cid s.clusters with
      | none =>
        simp only [attachClusterBlocks, hcur, hc]
        exact h
      | some c =>
        intro p hp
        have hp2 : p ∈ (attachClusterBlocks s).blocks := hp
        rw [attachClusterBlocks_blocks s cid c hcur hc] at hp2
        obtain ⟨q, hq, hpq⟩ := List.mem_map.mp hp2
        by_cases hcond : (q.2.parent.isNone
            && rectContains (clusterSceneRect c) q.2.pos) = true
        · rw [if_pos hcond] at hpq
          rw [← hpq]
          exact h q hq
        · rw [if_neg hcond] at hpq
          rw [← hpq]
          exact h q hq
  | saveEditCmd t c wOpt hOpt =>
    show stateBlocksWF (saveEdit t c wOpt hOpt s)
    cases hcb : s.currentBlock with
    | some bid =>
      cases hb : lookupKey bid s.blocks with
      | none =>
        simp only [saveEdit, hcb, hb]
        exact h
      | some b =>
        simp only [saveEdit, hcb, hb]
        intro p hp
        have hp2 : p ∈ mapValue s.blocks bid (fun b2 =>
            setBlockRect { b2 with title := t, content := c }
              { x := 0, y := 0,
                w := (match wOpt, hOpt with
                      | some w, some hh => ((w, hh) : ℚ × ℚ)
                      | _, _ => (b.rect.w, b.rect.h)).1,
                h := (match wOpt, hOpt with
                      | some w, some hh => ((w, hh) : ℚ × ℚ)
                      | _, _ => (b.rect.w, b.rect.h)).2 }) := hp
        exact blockWF_mapValue s.blocks bid _ h (fun b2 hb2 => ⟨rfl, rfl, rfl⟩) p hp2
    | none =>
      cases hcc : s.currentCluster with
      | some cid =>
        cases hc : lookupKey cid s.clusters with
        | none =>
          simp only [saveEdit, hcb, hcc, hc]
          exact h
        | some c2 =>
          simp only [saveEdit, hcb, hcc, hc]
          exact h
      | none =>
        simp only [saveEdit, hcb, hcc]
        exact h
  | moveBlockCmd bid q =>
    intro p hp
    have hp2 : p ∈ mapValue s.blocks bid
        (fun b => if b.locked then b else { b with pos := q }) := hp
    refine blockWF_mapValue s.blocks bid
      (fun b => if b.locked then b else { b with pos := q }) h (fun b hb => ?_) p hp2
    show blockWF (if b.locked then b else { b with pos := q })
    by_cases hl : b.locked = true
    · rw [if_pos hl]
      exact hb
    · rw [if_neg hl]
      exact hb
  | moveClusterCmd cid q => exact h
  | fixCmd =>
    show stateBlocksWF (fixCurrent s)
    cases hcb : s.currentBlock with
    | some bid =>
      simp only [fixCurrent, hcb]
      intro p hp
      have hp2 : p ∈ mapValue s.blocks bid (fun b => { b with locked := true }) := hp
      exact blockWF_mapValue s.blocks bid (fun b => { b with locked := true }) h
        (fun b hb => hb) p hp2
    | none =>
      cases hcc : s.currentCluster with
      | some cid =>
        simp only [fixCurrent, hcb, hcc]
        exact h
      | none =>
        simp only [fixCurrent, hcb, hcc]
        exact h
  | unfixCmd =>
    show stateBlocksWF (unfixCurrent s)
    cases hcb : s.currentBlock with
    | some bid =>
      simp only [unfixCurrent, hcb]
      intro p hp
      have hp2 : p ∈ mapValue s.blocks bid (fun b => { b with locked := false }) := hp
      exact blockWF_mapValue s.blocks bid (fun b => { b with locked := false }) h
        (fun b hb => hb) p hp2
    | none =>
      cases hcc : s.currentCluster with
      | some cid =>
        simp only [unfixCurrent, hcb, hcc]
        exact h
      | none =>
        simp only [unfixCurrent, hcb, hcc]
        exact h
  | setCurrentBlockCmd bid =>
    show stateBlocksWF (clickBlock bid s)
    cases hlb : lookupKey bid s.blocks with
    | some b =>
      simp only [clickBlock, hlb, setCurrentBlockFn]
      split
      · exact h
      · exact h
    | none =>
      simp only [clickBlock, hlb]
      exact h
  | setCurrentClusterCmd cid =>
    show stateBlocksWF (clickCluster cid s)
    cases hlc : lookupKey cid s.clusters with
    | some c =>
      simp only [clickCluster, hlc, setCurrentClusterFn]
      split
      · exact h
      · exact h
    | none =>
      simp only [clickCluster, hlc]
      exact h
  | startConnectionCmd bid o =>
    show stateBlocksWF (startConnection bid o s)
    rw [startConnection]
    split
    · exact h
    · exact h
  | endConnectionCmd bid o =>
    show stateBlocksWF (endConnection bid o s)
    cases hcc : s.current_connection with
    | none =>
      simp only [endConnection, hcc]
      exact h
    | some st =>
      simp only [endConnection, hcc]
      split
      · exact h
      · exact h
  | cancelConnectionCmd => exact h
  | changeColorCmd copt =>
    show stateBlocksWF (changeColor copt s)
    cases copt with
    | none =>
      simp only [changeColor]
      exact h
    | some col =>
      cases hcb : s.currentBlock with
      | some bid =>
        simp only [changeColor, hcb]
        cases hcc : s.currentCluster with
        | some cid =>
          simp only [hcc]
          intro p hp
          have hp2 : p ∈ mapValue s.blocks bid (fun b => { b with color := col }) := hp
          exact blockWF_mapValue s.blocks bid (fun b => { b with color := col }) h
            (fun b hb => hb) p hp2
        | none =>
          simp only [hcc]
          intro p hp
          have hp2 : p ∈ mapValue s.blocks bid (fun b => { b with color := col }) := hp
          exact blockWF_mapValue s.blocks bid (fun b => { b with color := col }) h
            (fun b hb => hb) p hp2
      | none =>
        simp only [changeColor, hcb]
        cases hcc : s.currentCluster with
        | some cid =>
          simp only [hcc]
          exact h
        | none =>
          simp only [hcc]
          exact h
  | newFileCmd =>
    intro p hp
    have hp2 : p ∈ ([] : List (Int × GraphBlock)) := hp
    exact absurd hp2 (List.not_mem_nil p)
  | openFileCmd parsed => exact stateBlocksWF_openFile parsed s h
  | lockToggleCmd b => exact h
  | dockClosedCmd => exact h

theorem stateBlocksWF_runCmds (cmds : List Cmd) : stateBlocksWF (runCmds cmds) := by
  have hrun : ∀ (l : List Cmd) (s : GraphEditor), stateBlocksWF s →
      stateBlocksWF (l.foldl step s) := by
    intro l
    induction l with
    | nil =>
      intro s hs
      exact hs
    | cons cmd rest ih =>
      intro s hs
      rw [List.foldl_cons]
      exact ih (step s cmd) (stateBlocksWF_step cmd s hs)
  exact hrun cmds initState (fun p hp => by simp [initState] at hp)

theorem anchorCenter_of_blockWF (b : GraphBlock) (h : blockWF b) :
    anchorCenter b Orientation.top = (b.rect.w / 2, 0) ∧
    anchorCenter b Orientation.bottom = (b.rect.w / 2, b.rect.h) ∧
    anchorCenter b Orientation.left = (0, b.rect.h / 2) ∧
    anchorCenter b Orientation.right = (b.rect.w, b.rect.h / 2) := by
  obtain ⟨hx, hy, ha⟩ := h
  refine ⟨?_, ?_, ?_, ?_⟩ <;>
    · simp only [anchorCenter, anchorPos, addPt, ha, updateAnchors, HANDLE_SIZE,
        hx, hy, Prod.mk.injEq]
      norm_num

/-- Claim C7: after any session of editor events from the initial state,
every registered block has its local rect anchored at the origin and its four
anchor handle centres, in block-local coordinates, at exactly
top = (w/2, 0), bottom = (w/2, h), left = (0, h/2) and right = (w, h/2). -/
theorem c7_anchor_invariant (cmds : List Cmd) (p : Int × GraphBlock)
    (hp : p ∈ (runCmds cmds).blocks) :
    p.2.rect.x = 0 ∧ p.2.rect.y = 0 ∧
    anchorCenter p.2 Orientation.top = (p.2.rect.w / 2, 0) ∧
    anchorCenter p.2 Orientation.bottom = (p.2.rect.w / 2, p.2.rect.h) ∧
    anchorCenter p.2 Orientation.left = (0, p.2.rect.h / 2) ∧
    anchorCenter p.2 Orientation.right = (p.2.rect.w, p.2.rect.h / 2) := by
  have hwf := stateBlocksWF_runCmds cmds p hp
  have hc := anchorCenter_of_blockWF p.2 hwf
  exact ⟨hwf.1, hwf.2.1, hc.1, hc.2.1, hc.2.2.1, hc.2.2.2⟩

/-- Claim C7 (witness): the invariant at the single block created by one
addBlock event. -/
theorem c7_anchor_invariant_witness :
    ((runCmds witCmds7).blocks.getD 0 (0, defaultGraphBlock)).2.rect.x = 0 ∧
    ((runCmds witCmds7).blocks.getD 0 (0, defaultGraphBlock)).2.rect.y = 0 ∧
    anchorCenter ((runCmds witCmds7).blocks.getD 0 (0, defaultGraphBlock)).2
      Orientation.top =
      (((runCmds witCmds7).blocks.getD 0 (0, defaultGraphBlock)).2.rect.w / 2, 0) ∧
    anchorCenter ((runCmds witCmds7).blocks.getD 0 (0, defaultGraphBlock)).2
      Orientation.bottom =
      (((runCmds witCmds7).blocks.getD 0 (0, defaultGraphBlock)).2.rect.w / 2,
       ((runCmds witCmds7).blocks.getD 0 (0, defaultGraphBlock)).2.rect.h) ∧
    anchorCenter ((runCmds witCmds7).blocks.getD 0 (0, defaultGraphBlock)).2
      Orientation.left =
      (0, ((runCmds witCmds7).blocks.getD 0 (0, defaultGraphBlock)).2.rect.h / 2) ∧
    anchorCenter ((runCmds witCmds7).blocks.getD 0 (0, defaultGraphBlock)).2
      Orientation.right =
      (((runCmds witCmds7).blocks.getD 0 (0, defaultGraphBlock)).2.rect.w,
       ((runCmds witCmds7).blocks.getD 0 (0, defaultGraphBlock)).2.rect.h / 2) :=
  c7_anchor_invariant witCmds7 ((runCmds witCmds7).blocks.getD 0 (0, defaultGraphBlock))
    (by with_unfolding_all decide)


/-- Claim C8: deleting a selected, registered block removes from the
connection set exactly the committed connections whose start or end anchor
belongs to that block (the connection list becomes the filter of the
untouched ones, in order), and leaves every connection not touching the
block, every other block's registry entry, and every cluster unchanged. -/
theorem c8_delete_connections (bid : Int) (s : GraphEditor)
    (h : (lookupKey bid s.blocks).isSome = true) :
    (deleteSelected [SelItem.block bid] s).connections
        = s.connections.filter (fun c => !(touchesBlock bid c)) ∧
    (∀ c, c ∈ (deleteSelected [SelItem.block bid] s).connections ↔
        (c ∈ s.connections ∧ touchesBlock bid c = false)) ∧
    (deleteSelected [SelItem.block bid] s).clusters = s.clusters ∧
    (∀ k, k ≠ bid →
        lookupKey k (deleteSelected [SelItem.block bid] s).blocks
          = lookupKey k s.blocks) := by
  have hred : deleteSelected [SelItem.block bid] s =
      { s with
        connections := s.connections.filter (fun c => !(touchesBlock bid c)),
        blocks := removeKey bid s.blocks } := by
    show deleteOneSelected s (SelItem.block bid) = _
    simp only [deleteOneSelected]
    rw [if_pos h]
  refine ⟨?_, ?_, ?_, ?_⟩
  · rw [hred]
  · intro c
    rw [hred]
    simp only [List.mem_filter, Bool.not_eq_true']
  · rw [hred]
  · intro k hk
    rw [hred]
    show lookupKey k (removeKey bid s.blocks) = lookupKey k s.blocks
    rw [lookupKey_removeKey]
    simp [hk]

/-- Claim C8 (witness): at a state with three blocks and three committed
connections, two of which touch block 1, deleting block 1 keeps exactly the
untouched connection and the other registry entries. -/
theorem c8_delete_connections_witness :
    (lookupKey 1 witS8.blocks).isSome = true ∧
    ((deleteSelected [SelItem.block 1] witS8).connections
        = witS8.connections.filter (fun c => !(touchesBlock 1 c)) ∧
     (∀ c, c ∈ (deleteSelected [SelItem.block 1] witS8).connections ↔
        (c ∈ witS8.connections ∧ touchesBlock 1 c = false)) ∧
     (deleteSelected [SelItem.block 1] witS8).clusters = witS8.clusters ∧
     (∀ k, k ≠ 1 →
        lookupKey k (deleteSelected [SelItem.block 1] witS8).blocks
          = lookupKey k witS8.blocks)) :=
  ⟨by with_unfolding_all decide,
   c8_delete_connections 1 witS8 (by with_unfolding_all decide)⟩


/-- Claim C9 (code bug): entering a new width and height for the selected
cluster in the edit panel leaves the cluster rect unchanged.  The handler
computes the new rect but never applies it (setClusterRect is dead code), so
only the title and content change; the claim that the cluster rect becomes
the entered width and height diverges from the code.  Member blocks are
indeed untouched. -/
theorem c9_cluster_resize_bug :
    ((lookupKey 1 bugS9after.clusters).map GraphCluster.title = some ("T")) ∧
    ((lookupKey 1 bugS9after.clusters).map GraphCluster.rect
        = (lookupKey 1 bugS9.clusters).map GraphCluster.rect) ∧
    ((lookupKey 1 bugS9after.clusters).map (fun c => (c.rect.w, c.rect.h))
        ≠ some ((222 : ℚ), (99 : ℚ))) ∧
    bugS9after.blocks = bugS9.blocks := by
  refine ⟨?_, ?_, ?_, ?_⟩ <;> with_unfolding_all decide

theorem mem_removeKey {α : Type} (k : Int) (l : List (Int × α)) (p : Int × α)
    (h : p ∈ removeKey k l) : p ∈ l ∧ p.1 ≠ k := by
  rw [removeKey] at h
  have hf := List.mem_filter.mp h
  refine ⟨hf.1, ?_⟩
  simpa using hf.2

theorem lookupKey_loadBlocksAux_none (bds : List BlockData) (s0 : GraphEditor)
    (j : Int) (hs : j ∉ keysOf s0.blocks) (hb : j ∉ bds.map BlockData.id) :
    lookupKey j (loadBlocksAux bds s0).blocks = none := by
  induction bds generalizing s0 with
  | nil =>
    show lookupKey j s0.blocks = none
    cases hE : lookupKey j s0.blocks with
    | none => rfl
    | some v =>
      exact absurd ((lookupKey_isSome_iff_mem_keysOf j s0.blocks).mp
        (by rw [hE]; rfl)) hs
  | cons bd rest ih =>
    show lookupKey j (loadBlocksAux rest (loadBlock s0 bd)).blocks = none
    apply ih (loadBlock s0 bd)
    · intro hmem
      have hblocks : (loadBlock s0 bd).blocks
          = dictInsert s0.blocks bd.id (blockOfData bd) := by
        simp only [loadBlock]
        split <;> rfl
      rw [hblocks] at hmem
      rcases keysOf_dictInsert s0.blocks bd.id j (blockOfData bd) hmem with h1 | h1
      · exact hs h1
      · apply hb
        rw [h1, List.map_cons]
        exact List.mem_cons_self _ _
    · intro hmem
      apply hb
      rw [List.map_cons]
      exact List.mem_cons_of_mem _ hmem

/-- Claim C10: deleting a registered block that is a member of a registered
cluster leaves the cluster registry — and hence the cluster member list —
untouched; a subsequent save therefore writes the deleted block id into that
cluster entry's block_ids while writing no blocks[] entry with that id (given
that registry keys agree with the stored block ids), and any later load of
the saved document cannot resolve the dangling id, so it is dropped from the
reconstructed member list. -/
theorem c10_dangling_member (s : GraphEditor) (bid cid : Int) (c : GraphCluster)
    (h1 : lookupKey cid s.clusters = some c) (h2 : bid ∈ c.blocks)
    (h3 : (lookupKey bid s.blocks).isSome = true)
    (hid : ∀ p ∈ s.blocks, p.2.block_id = p.1) :
    (deleteSelected [SelItem.block bid] s).clusters = s.clusters ∧
    saveClusterEntry (cid, c)
        ∈ (saveFile (deleteSelected [SelItem.block bid] s)).clusters ∧
    bid ∈ (saveClusterEntry (cid, c)).block_ids ∧
    bid ∉ docBlockIds (saveFile (deleteSelected [SelItem.block bid] s)) ∧
    (∀ u : GraphEditor,
      bid ∉ resolvedIds
        (loadBlocksAux (saveFile (deleteSelected [SelItem.block bid] s)).blocks
          (newFile u))
        (saveClusterEntry (cid, c))) := by
  have hred : deleteSelected [SelItem.block bid] s =
      { s with
        connections := s.connections.filter (fun c2 => !(touchesBlock bid c2)),
        blocks := removeKey bid s.blocks } := by
    show deleteOneSelected s (SelItem.block bid) = _
    simp only [deleteOneSelected]
    rw [if_pos h3]
  have hdangling :
      bid ∉ docBlockIds (saveFile (deleteSelected [SelItem.block bid] s)) := by
    intro hmem
    rw [docBlockIds] at hmem
    have hsb : (saveFile (deleteSelected [SelItem.block bid] s)).blocks
        = (deleteSelected [SelItem.block bid] s).blocks.map
            (saveBlockEntry (deleteSelected [SelItem.block bid] s)) := rfl
    rw [hsb, List.map_map] at hmem
    obtain ⟨p, hp, hpid⟩ := List.mem_map.mp hmem
    rw [show (deleteSelected [SelItem.block bid] s).blocks
          = removeKey bid s.blocks from by rw [hred]] at hp
    obtain ⟨hpl, hpk⟩ := mem_removeKey bid s.blocks p hp
    have hcomp : (BlockData.id ∘ saveBlockEntry
        (deleteSelected [SelItem.block bid] s)) p = p.2.block_id := rfl
    rw [hcomp] at hpid
    exact hpk (by rw [← hid p hpl, hpid])
  refine ⟨?_, ?_, ?_, hdangling, ?_⟩
  · rw [hred]
  · have hmemc : (cid, c) ∈ s.clusters := lookupKey_some_mem cid s.clusters c h1
    rw [hred]
    show saveClusterEntry (cid, c) ∈ s.clusters.map saveClusterEntry
    exact List.mem_map_of_mem saveClusterEntry hmemc
  · show bid ∈ c.blocks
    exact h2
  · intro u hmem
    have hfil := List.mem_filter.mp hmem
    have hnone : lookupKey bid
        (loadBlocksAux (saveFile (deleteSelected [SelItem.block bid] s)).blocks
          (newFile u)).blocks = none := by
      apply lookupKey_loadBlocksAux_none
      · simp [newFile, keysOf]
      · exact hdangling
    rw [hnone] at hfil
    simp at hfil

/-- Claim C10 (witness): blocks 1 and 2 grouped into cluster 1; deleting
block 1 leaves the cluster's member list [1, 2], the saved document carries
the dangling id 1 in the cluster entry but no block of id 1, and reloading
cannot resolve it. -/
theorem c10_dangling_member_witness :
    (lookupKey 1 witS10.clusters = some witC10cluster) ∧
    (1 : Int) ∈ witC10cluster.blocks ∧
    (lookupKey 1 witS10.blocks).isSome = true ∧
    ((deleteSelected [SelItem.block 1] witS10).clusters = witS10.clusters ∧
     saveClusterEntry (1, witC10cluster)
        ∈ (saveFile (deleteSelected [SelItem.block 1] witS10)).clusters ∧
     (1 : Int) ∈ (saveClusterEntry (1, witC10cluster)).block_ids ∧
     (1 : Int) ∉ docBlockIds (saveFile (deleteSelected [SelItem.block 1] witS10)) ∧
     (∀ u : GraphEditor,
       (1 : Int) ∉ resolvedIds
         (loadBlocksAux (saveFile (deleteSelected [SelItem.block 1] witS10)).blocks
           (newFile u))
         (saveClusterEntry (1, witC10cluster)))) :=
  ⟨by with_unfolding_all decide, by with_unfolding_all decide,
   by with_unfolding_all decide,
   c10_dangling_member witS10 1 1 witC10cluster (by with_unfolding_all decide)
     (by with_unfolding_all decide) (by with_unfolding_all decide)
     (by with_unfolding_all decide)⟩

end GraphEditorModel
